import Mathlib

/-!
# projtest: generator of golden-value projection specs

A shallow embedding of `src/projtest/projtest.c` and theorems about it.

The program drives the PROJ.4 library (`pj_init_plus`, `pj_transform`) over a
table of projections and a table of reference points and prints a JSpec
description to standard output.  The library, the C `double` arithmetic and
the `printf` number conversions are not part of the program: they are
parameters of the embedding (`Proj`, `Double`).  The effects of the
program are made explicit in a `World`: the strings written by the successive
`printf` calls (standard output is their concatenation; `exit` flushes it) and
the log of the library calls made.  A library call and its entry in the log are
made together (`call_pj_init_plus`, `call_pj_transform`).
-/

set_option maxRecDepth 1000000

namespace Projtest

/-! ## Data model -/

/-- The C struct `projection_t` (projtest.c, lines 5-8). -/
structure projection_t where
  init_string : String
  name : String
deriving DecidableEq, Repr

/-- The C struct `point_t` (projtest.c, lines 17-20), over the type of doubles. -/
structure point_t (D : Type) where
  x : D
  y : D
deriving DecidableEq, Repr

/-- What the program needs of the C type `double`, of the two angular macros
of `proj_api.h` and of the `printf` conversions `%f` and `%.20f`. -/
structure Double (D : Type) where
  /-- conversion of an integer constant to `double` -/
  ofInt : Int → D
  /-- multiplication of doubles -/
  mul : D → D → D
  /-- the macro `RAD_TO_DEG` of `proj_api.h` -/
  RAD_TO_DEG : D
  /-- the macro `DEG_TO_RAD` of `proj_api.h` -/
  DEG_TO_RAD : D
  /-- the text `printf` produces for the conversion `%f` -/
  printf_f : D → String
  /-- the text `printf` produces for the conversion `%.20f` -/
  printf_20f : D → String

/-- The two functions of the PROJ.4 library the program calls, as functions of
their arguments.  `pj_init_plus` returns `none` for the NULL pointer.
`pj_transform src dst point_count point_offset x y z` returns its status code
(0 is success) and the values it leaves in `*x` and `*y`; `z` is `none` for a
NULL pointer. -/
structure Proj (PJ D : Type) where
  pj_init_plus : String → Option PJ
  pj_transform : PJ → PJ → Nat → Nat → D → D → Option D → Int × D × D

/-- The array `PROJECTIONS` (projtest.c, lines 10-15). -/
def PROJECTIONS : List projection_t :=
  [ ⟨"+proj=merc +a=6378137 +b=6378137 +lat_ts=0.0 +lon_0=0.0 +x_0=0.0 +y_0=0 +k=1.0 +units=m +nadgrids=@null +no_defs",
     "WebMercator"⟩ ]

/-- The array `TEST_POINTS` (projtest.c, lines 22-31).  The constant `1.0` is
the double of the integer 1; the other entries are integer constants. -/
def TEST_POINTS {D : Type} (A : Double D) : List (point_t D) :=
  [ ⟨A.mul (A.ofInt 1) A.RAD_TO_DEG, A.mul (A.ofInt 1) A.RAD_TO_DEG⟩,
    ⟨A.ofInt 0, A.ofInt 0⟩,
    ⟨A.ofInt 0, A.ofInt 45⟩,
    ⟨A.ofInt 0, A.ofInt 85⟩,
    ⟨A.ofInt 0, A.ofInt (-85)⟩,
    ⟨A.ofInt 180, A.ofInt 0⟩,
    ⟨A.ofInt (-180), A.ofInt 0⟩,
    ⟨A.ofInt 45, A.ofInt 45⟩ ]

/-! ## Effects -/

/-- A call made to the library, with its arguments: `init` for `pj_init_plus`,
`transform` for `pj_transform`. -/
inductive Call (PJ D : Type) where
  | init (definition : String)
  | transform (src dst : PJ) (point_count point_offset : Nat) (x y : D) (z : Option D)
deriving DecidableEq, Repr

/-- The observable effects so far: what each `printf` call wrote, in order, and
the library calls made, in order. -/
structure World (PJ D : Type) where
  stdout : List String
  calls : List (Call PJ D)

/-- One `printf` call writing the text `s`. -/
def World.printf {PJ D : Type} (w : World PJ D) (s : String) : World PJ D :=
  ⟨w.stdout ++ [s], w.calls⟩

/-- One library call is logged. -/
def World.call {PJ D : Type} (w : World PJ D) (c : Call PJ D) : World PJ D :=
  ⟨w.stdout, w.calls ++ [c]⟩

/-- A call of `pj_init_plus`: its result, and the world with the call logged. -/
def call_pj_init_plus {PJ D : Type} (E : Proj PJ D) (w : World PJ D) (definition : String) :
    Option PJ × World PJ D :=
  (E.pj_init_plus definition, w.call (Call.init definition))

/-- A call of `pj_transform`: its result (status and the values left in `*x`
and `*y`), and the world with the call logged. -/
def call_pj_transform {PJ D : Type} (E : Proj PJ D) (w : World PJ D) (src dst : PJ)
    (point_count point_offset : Nat) (x y : D) (z : Option D) : (Int × D × D) × World PJ D :=
  (E.pj_transform src dst point_count point_offset x y z,
   w.call (Call.transform src dst point_count point_offset x y z))

/-- How a function of the program ends: it returns to its caller, or it has
called `exit(code)`. -/
inductive Step (σ : Type) where
  | cont (w : σ)
  | exit (code : Int) (w : σ)

/-! ## The program -/

/-- The body of the `for` loop of `process_projection` (projtest.c, lines 56-79)
for one test point. -/
def test_point_body {PJ D : Type} (E : Proj PJ D) (A : Double D)
    (prj : projection_t) (pj_tgt pj_latlong : PJ)
    (w : World PJ D) (test_point : point_t D) : World PJ D :=
  let x := A.mul test_point.x A.DEG_TO_RAD
  let y := A.mul test_point.y A.DEG_TO_RAD
  let r := call_pj_transform E w pj_latlong pj_tgt 1 1 x y none
  let w := r.2
  let x := r.1.2.1
  let y := r.1.2.2
  let w := w.printf ("\t\tit 'should forward transform (" ++ A.printf_f test_point.x ++ ", "
    ++ A.printf_f test_point.y ++ ") to (" ++ A.printf_f x ++ "," ++ A.printf_f y ++ ")'\n")
  let w := w.printf ("\t\t\txy=Projections." ++ prj.name ++ ".forward(\x7bx: "
    ++ A.printf_20f test_point.x ++ ", y: " ++ A.printf_20f test_point.y ++ "\x7d)\n")
  let w := w.printf ("\t\t\txy.x.should.equal_approximately " ++ A.printf_20f x ++ "\n")
  let w := w.printf ("\t\t\txy.y.should.equal_approximately " ++ A.printf_20f y ++ "\n")
  let w := w.printf "\t\tend\n\n"
  let x1 := x
  let y1 := y
  let r1 := call_pj_transform E w pj_tgt pj_latlong 1 1 x1 y1 none
  let w := r1.2
  let x1 := A.mul r1.1.2.1 A.RAD_TO_DEG
  let y1 := A.mul r1.1.2.2 A.RAD_TO_DEG
  let w := w.printf ("\t\tit 'should inverse transform (" ++ A.printf_f x ++ ", "
    ++ A.printf_f y ++ ") to (" ++ A.printf_f x1 ++ "," ++ A.printf_f y1 ++ ")'\n")
  let w := w.printf ("\t\t\txy=Projections." ++ prj.name ++ ".inverse(\x7bx: "
    ++ A.printf_20f x ++ ", y: " ++ A.printf_20f y ++ "\x7d)\n")
  let w := w.printf ("\t\t\txy.x.should.equal_approximately " ++ A.printf_20f x1 ++ "\n")
  let w := w.printf ("\t\t\txy.y.should.equal_approximately " ++ A.printf_20f y1 ++ "\n")
  let w := w.printf "\t\tend\n\n"
  w

/-- The function `process_projection` (projtest.c, lines 33-83).  The global
array `TEST_POINTS` it loops over is the parameter `points`. -/
def process_projection {PJ D : Type} (E : Proj PJ D) (A : Double D)
    (points : List (point_t D)) (prj : projection_t) (w : World PJ D) :
    Step (World PJ D) :=
  let r := call_pj_init_plus E w prj.init_string
  let pj_tgt := r.1
  let w := r.2
  let r := call_pj_init_plus E w "+proj=latlong +ellps=WGS84"
  let pj_latlong := r.1
  let w := r.2
  match pj_latlong with
  | none => Step.exit 1 (w.printf "could not init latlong\n")
  | some pj_latlong =>
    match pj_tgt with
    | none =>
      Step.exit 1 (w.printf ("could not init target projection: " ++ prj.init_string ++ "\n"))
    | some pj_tgt =>
      let w := w.printf ("\tdescribe '" ++ prj.name ++ "'\n")
      let w := points.foldl (test_point_body E A prj pj_tgt pj_latlong) w
      Step.cont (w.printf "\tend\n\n")

/-- The `for` loop of `main` (projtest.c, lines 94-96): the projections are
processed in order until one of them exits. -/
def for_projections {PJ D : Type} (E : Proj PJ D) (A : Double D)
    (points : List (point_t D)) : List projection_t → World PJ D → Step (World PJ D)
  | [], w => Step.cont w
  | prj :: rest, w =>
    match process_projection E A points prj w with
    | Step.cont w => for_projections E A points rest w
    | Step.exit code w => Step.exit code w

/-- The function `main` (projtest.c, lines 85-101), with the two global arrays
as parameters; the result is the exit code of the process and its effects. -/
def main {PJ D : Type} (E : Proj PJ D) (A : Double D)
    (projections : List projection_t) (points : List (point_t D)) : Int × World PJ D :=
  let w : World PJ D := ⟨[], []⟩
  let w := w.printf "describe 'Projections'\n"
  let w := w.printf "\tbefore_each\n"
  let w := w.printf "\t\tProjections=nanocore.Projections\n"
  let w := w.printf "\tend\n\n"
  match for_projections E A points projections w with
  | Step.exit code w => (code, w)
  | Step.cont w => (0, w.printf "end\n")

/-- The program as built: `main` over the arrays `PROJECTIONS` and `TEST_POINTS`. -/
def projtest {PJ D : Type} (E : Proj PJ D) (A : Double D) : Int × World PJ D :=
  main E A PROJECTIONS (TEST_POINTS A)

/-- The bytes on standard output: the concatenation of what was printed. -/
def World.text {PJ D : Type} (w : World PJ D) : String :=
  String.join w.stdout

/-! ## The emitted text, written out

The definitions below follow the output format of the specification; the
theorems compare them with what the program prints. -/

/-- The latlong definition the program passes to `pj_init_plus` (line 43). -/
def LATLONG : String := "+proj=latlong +ellps=WGS84"

/-- The header: the opening `describe` and the `before_each` block. -/
def header : List String :=
  [ "describe 'Projections'\n",
    "\tbefore_each\n",
    "\t\tProjections=nanocore.Projections\n",
    "\tend\n\n" ]

/-- The forward test case of the point `(lon, lat)` with the result `(x, y)`. -/
def forward_case {D : Type} (A : Double D) (name : String) (lon lat x y : D) : List String :=
  [ "\t\tit 'should forward transform (" ++ A.printf_f lon ++ ", " ++ A.printf_f lat
      ++ ") to (" ++ A.printf_f x ++ "," ++ A.printf_f y ++ ")'\n",
    "\t\t\txy=Projections." ++ name ++ ".forward(\x7bx: " ++ A.printf_20f lon ++ ", y: "
      ++ A.printf_20f lat ++ "\x7d)\n",
    "\t\t\txy.x.should.equal_approximately " ++ A.printf_20f x ++ "\n",
    "\t\t\txy.y.should.equal_approximately " ++ A.printf_20f y ++ "\n",
    "\t\tend\n\n" ]

/-- The inverse test case of the projected point `(x, y)` with the result
`(lon1, lat1)`. -/
def inverse_case {D : Type} (A : Double D) (name : String) (x y lon1 lat1 : D) : List String :=
  [ "\t\tit 'should inverse transform (" ++ A.printf_f x ++ ", " ++ A.printf_f y
      ++ ") to (" ++ A.printf_f lon1 ++ "," ++ A.printf_f lat1 ++ ")'\n",
    "\t\t\txy=Projections." ++ name ++ ".inverse(\x7bx: " ++ A.printf_20f x ++ ", y: "
      ++ A.printf_20f y ++ "\x7d)\n",
    "\t\t\txy.x.should.equal_approximately " ++ A.printf_20f lon1 ++ "\n",
    "\t\t\txy.y.should.equal_approximately " ++ A.printf_20f lat1 ++ "\n",
    "\t\tend\n\n" ]

/-- The point the forward call returns for a reference point in degrees. -/
def forward_xy {PJ D : Type} (E : Proj PJ D) (A : Double D) (ll tgt : PJ)
    (pt : point_t D) : D × D :=
  (E.pj_transform ll tgt 1 1 (A.mul pt.x A.DEG_TO_RAD) (A.mul pt.y A.DEG_TO_RAD) none).2

/-- The point the inverse call returns for the forward result, in degrees. -/
def inverse_lonlat {PJ D : Type} (E : Proj PJ D) (A : Double D) (ll tgt : PJ)
    (pt : point_t D) : D × D :=
  let r := (E.pj_transform tgt ll 1 1 (forward_xy E A ll tgt pt).1 (forward_xy E A ll tgt pt).2
    none).2
  (A.mul r.1 A.RAD_TO_DEG, A.mul r.2 A.RAD_TO_DEG)

/-- The two test cases of one reference point. -/
def point_cases {PJ D : Type} (E : Proj PJ D) (A : Double D) (name : String) (ll tgt : PJ)
    (pt : point_t D) : List String :=
  forward_case A name pt.x pt.y (forward_xy E A ll tgt pt).1 (forward_xy E A ll tgt pt).2
  ++ inverse_case A name (forward_xy E A ll tgt pt).1 (forward_xy E A ll tgt pt).2
      (inverse_lonlat E A ll tgt pt).1 (inverse_lonlat E A ll tgt pt).2

/-- The two library calls of one reference point. -/
def point_calls {PJ D : Type} (E : Proj PJ D) (A : Double D) (ll tgt : PJ)
    (pt : point_t D) : List (Call PJ D) :=
  [ Call.transform ll tgt 1 1 (A.mul pt.x A.DEG_TO_RAD) (A.mul pt.y A.DEG_TO_RAD) none,
    Call.transform tgt ll 1 1 (forward_xy E A ll tgt pt).1 (forward_xy E A ll tgt pt).2 none ]

/-- The `describe` block of one projection over the contexts `ll` and `tgt`. -/
def describe_block {PJ D : Type} (E : Proj PJ D) (A : Double D) (points : List (point_t D))
    (name : String) (ll tgt : PJ) : List String :=
  ("\tdescribe '" ++ name ++ "'\n") :: points.flatMap (point_cases E A name ll tgt)
    ++ ["\tend\n\n"]

/-- The library calls made for one projection over the contexts `ll` and `tgt`. -/
def block_calls {PJ D : Type} (E : Proj PJ D) (A : Double D) (points : List (point_t D))
    (prj : projection_t) (ll tgt : PJ) : List (Call PJ D) :=
  Call.init prj.init_string :: Call.init LATLONG :: points.flatMap (point_calls E A ll tgt)

/-- Both contexts of a projection can be created. -/
def inits_ok {PJ D : Type} (E : Proj PJ D) (prj : projection_t) : Prop :=
  (E.pj_init_plus LATLONG).isSome = true ∧ (E.pj_init_plus prj.init_string).isSome = true

instance {PJ D : Type} (E : Proj PJ D) (prj : projection_t) : Decidable (inits_ok E prj) :=
  inferInstanceAs (Decidable ((E.pj_init_plus LATLONG).isSome = true
    ∧ (E.pj_init_plus prj.init_string).isSome = true))

/-- What a projection contributes to standard output when its contexts exist
(nothing otherwise). -/
def emitted_block {PJ D : Type} (E : Proj PJ D) (A : Double D) (points : List (point_t D))
    (prj : projection_t) : List String :=
  match E.pj_init_plus LATLONG, E.pj_init_plus prj.init_string with
  | some ll, some tgt => describe_block E A points prj.name ll tgt
  | _, _ => []

/-- The library calls a projection whose contexts exist gives rise to. -/
def emitted_calls {PJ D : Type} (E : Proj PJ D) (A : Double D) (points : List (point_t D))
    (prj : projection_t) : List (Call PJ D) :=
  match E.pj_init_plus LATLONG, E.pj_init_plus prj.init_string with
  | some ll, some tgt => block_calls E A points prj ll tgt
  | _, _ => []

/-- The message printed when a context of the projection cannot be created. -/
def init_error {PJ D : Type} (E : Proj PJ D) (prj : projection_t) : String :=
  match E.pj_init_plus LATLONG with
  | none => "could not init latlong\n"
  | some _ => "could not init target projection: " ++ prj.init_string ++ "\n"

/-! ## The emitted text as lines -/

/-- The text made of the given lines, each ended by a newline. -/
def unlines (ls : List String) : String :=
  String.join (ls.map (fun l => l ++ "\n"))

/-- The lines of the header. -/
def header_lines : List String :=
  [ "describe 'Projections'",
    "\tbefore_each",
    "\t\tProjections=nanocore.Projections",
    "\tend",
    "" ]

/-- The lines of a forward test case and the empty line after it. -/
def forward_lines {D : Type} (A : Double D) (name : String) (lon lat x y : D) : List String :=
  [ "\t\tit 'should forward transform (" ++ A.printf_f lon ++ ", " ++ A.printf_f lat
      ++ ") to (" ++ A.printf_f x ++ "," ++ A.printf_f y ++ ")'",
    "\t\t\txy=Projections." ++ name ++ ".forward(\x7bx: " ++ A.printf_20f lon ++ ", y: "
      ++ A.printf_20f lat ++ "\x7d)",
    "\t\t\txy.x.should.equal_approximately " ++ A.printf_20f x,
    "\t\t\txy.y.should.equal_approximately " ++ A.printf_20f y,
    "\t\tend",
    "" ]

/-- The lines of an inverse test case and the empty line after it. -/
def inverse_lines {D : Type} (A : Double D) (name : String) (x y lon1 lat1 : D) : List String :=
  [ "\t\tit 'should inverse transform (" ++ A.printf_f x ++ ", " ++ A.printf_f y
      ++ ") to (" ++ A.printf_f lon1 ++ "," ++ A.printf_f lat1 ++ ")'",
    "\t\t\txy=Projections." ++ name ++ ".inverse(\x7bx: " ++ A.printf_20f x ++ ", y: "
      ++ A.printf_20f y ++ "\x7d)",
    "\t\t\txy.x.should.equal_approximately " ++ A.printf_20f lon1,
    "\t\t\txy.y.should.equal_approximately " ++ A.printf_20f lat1,
    "\t\tend",
    "" ]

/-- The lines of the two test cases of one reference point. -/
def point_lines {PJ D : Type} (E : Proj PJ D) (A : Double D) (name : String) (ll tgt : PJ)
    (pt : point_t D) : List String :=
  forward_lines A name pt.x pt.y (forward_xy E A ll tgt pt).1 (forward_xy E A ll tgt pt).2
  ++ inverse_lines A name (forward_xy E A ll tgt pt).1 (forward_xy E A ll tgt pt).2
      (inverse_lonlat E A ll tgt pt).1 (inverse_lonlat E A ll tgt pt).2

/-- The lines of the `describe` block of one projection. -/
def block_lines {PJ D : Type} (E : Proj PJ D) (A : Double D) (points : List (point_t D))
    (name : String) (ll tgt : PJ) : List String :=
  ("\tdescribe '" ++ name ++ "'") :: points.flatMap (point_lines E A name ll tgt)
    ++ ["\tend", ""]

/-- The lines of a complete specification. -/
def spec_lines {PJ D : Type} (E : Proj PJ D) (A : Double D) (projections : List projection_t)
    (points : List (point_t D)) (ll : PJ) (tgt : projection_t → PJ) : List String :=
  header_lines ++ projections.flatMap (fun prj => block_lines E A points prj.name ll (tgt prj))
    ++ ["end"]

/-- The lines of a text: every newline ends a line; what follows the last
newline is a line when it is not empty. -/
def split_lines : List Char → List (List Char)
  | [] => []
  | c :: cs =>
    if c = '\n' then [] :: split_lines cs
    else
      match split_lines cs with
      | [] => [[c]]
      | l :: ls => (c :: l) :: ls

/-- The lines of a string. -/
def text_lines (s : String) : List String :=
  (split_lines s.data).map String.mk

/-- The lines on standard output. -/
def World.lines {PJ D : Type} (w : World PJ D) : List String :=
  text_lines w.text

/-- A line without its indentation. -/
def strip_tabs (l : String) : List Char :=
  l.data.dropWhile (fun c => c = '\t')

/-- An opener line: `describe ...`, `before_each` or `it ...`. -/
def is_opener (l : String) : Bool :=
  "describe ".data.isPrefixOf (strip_tabs l) || strip_tabs l == "before_each".data
    || "it ".data.isPrefixOf (strip_tabs l)

/-- An `end` line. -/
def is_end (l : String) : Bool :=
  strip_tabs l == "end".data

/-- The nesting depth after the lines `ls`, starting at depth `d`; `none` when
an `end` line occurs at depth 0. -/
def nesting : Nat → List String → Option Nat
  | d, [] => some d
  | d, l :: ls =>
    if is_opener l then nesting (d + 1) ls
    else if is_end l then
      match d with
      | 0 => none
      | k + 1 => nesting k ls
    else nesting d ls

/-- The effects at the end of a step. -/
def Step.world {σ : Type} : Step σ → σ
  | Step.cont w => w
  | Step.exit _ w => w

/-- A printed string that opens an `it` block. -/
def is_it (s : String) : Bool :=
  "\t\tit '".data.isPrefixOf s.data

/-- A printed string that opens the `describe` block of a projection. -/
def is_describe (s : String) : Bool :=
  "\tdescribe '".data.isPrefixOf s.data

/-- The engine `E` with the status codes of `pj_transform` replaced by `status`. -/
def Proj.with_status {PJ D : Type} (E : Proj PJ D)
    (status : PJ → PJ → Nat → Nat → D → D → Option D → Int) : Proj PJ D :=
  ⟨E.pj_init_plus,
   fun src dst n off x y z => (status src dst n off x y z, (E.pj_transform src dst n off x y z).2)⟩

/-! ## A concrete instance

Numbers with twenty decimal digits after the point stand in for doubles (the
integer `n` is the number `n / 10^20`), and an equirectangular projection of a
sphere stands in for the library. -/

/-- The contexts of the concrete engines. -/
inductive Frame where
  | latlong
  | planar
deriving DecidableEq, Repr

/-- The product of two fixed-point numbers. -/
def fixed_mul (a b : Int) : Int := (a * b) / 10 ^ 20

/-- The quotient of two fixed-point numbers. -/
def fixed_div (a b : Int) : Int := (a * 10 ^ 20) / b

/-- A decimal digit. -/
def digit (k : Nat) : Char :=
  match k % 10 with
  | 0 => '0' | 1 => '1' | 2 => '2' | 3 => '3' | 4 => '4'
  | 5 => '5' | 6 => '6' | 7 => '7' | 8 => '8' | _ => '9'

/-- The last `width` decimal digits of `n`. -/
def decimal : Nat → Nat → List Char
  | 0, _ => []
  | w + 1, n => decimal w (n / 10) ++ [digit n]

/-- The decimal digits of `n`, without leading zeros. -/
def natural : Nat → Nat → List Char
  | 0, _ => []
  | fuel + 1, n => if n < 10 then [digit n] else natural fuel (n / 10) ++ [digit n]

/-- The text of a fixed-point number with `digits` digits after the point,
rounded half away from zero. -/
def fixed_render (digits : Nat) (v : Int) : String :=
  let q := 10 ^ (20 - digits)
  let r := (v.natAbs + q / 2) / q
  String.mk ((if v < 0 then ['-'] else []) ++ natural (r + 1) (r / 10 ^ digits) ++ ['.']
    ++ decimal digits (r % 10 ^ digits))

/-- Fixed-point arithmetic in the role of the C doubles. -/
def fixed : Double Int :=
  ⟨fun n => n * 10 ^ 20, fixed_mul, 5729577951308232000000, 1745329251994329580,
   fixed_render 6, fixed_render 20⟩

/-- The radius of the sphere, in metres. -/
def EARTH : Int := 6378137 * 10 ^ 20

/-- The transform of the equirectangular engine; it always succeeds. -/
def equirect_transform (src dst : Frame) (x y : Int) : Int × Int × Int :=
  match src, dst with
  | Frame.latlong, Frame.planar => (0, fixed_mul x EARTH, fixed_mul y EARTH)
  | Frame.planar, Frame.latlong => (0, fixed_div x EARTH, fixed_div y EARTH)
  | _, _ => (0, x, y)

/-- An engine that accepts the latlong definition and every definition that
starts with `+proj=`. -/
def equirect : Proj Frame Int :=
  ⟨fun s => if s = LATLONG then some Frame.latlong
      else if "+proj=".data.isPrefixOf s.data then some Frame.planar else none,
   fun src dst _ _ x y _ => equirect_transform src dst x y⟩

/-- An engine that cannot create any context. -/
def no_context : Proj Frame Int :=
  ⟨fun _ => none, fun src dst _ _ x y _ => equirect_transform src dst x y⟩

/-- An engine that can create the latlong context only. -/
def latlong_only : Proj Frame Int :=
  ⟨fun s => if s = LATLONG then some Frame.latlong else none,
   fun src dst _ _ x y _ => equirect_transform src dst x y⟩

/-- An engine whose forward transform is defined up to 80 degrees of latitude:
beyond, the call reports the error -14 and leaves the point as it was. -/
def bounded : Proj Frame Int :=
  ⟨equirect.pj_init_plus,
   fun src dst _ _ x y _ =>
     if src = Frame.latlong ∧ (fixed_mul 80 fixed.DEG_TO_RAD * 10 ^ 20 < y
        ∨ y < - (fixed_mul 80 fixed.DEG_TO_RAD * 10 ^ 20))
     then (-14, x, y) else equirect_transform src dst x y⟩

/-- A registry whose only name contains line breaks. -/
def BROKEN_NAME : List projection_t :=
  [ ⟨"+proj=merc", "A'\nend\nend\nend\n\tdescribe 'B"⟩ ]

/-- The characters of a sequence of printed strings. -/
def chunks_text (cs : List String) : List Char :=
  (cs.map String.data).flatten

/-- The characters of a sequence of lines, each ended by a newline. -/
def lines_text (ls : List String) : List Char :=
  ls.flatMap (fun l => l.data ++ ['\n'])

/-! ## How the loops unfold -/

theorem test_point_body_eq {PJ D : Type} (E : Proj PJ D) (A : Double D) (prj : projection_t)
    (tgt ll : PJ) (w : World PJ D) (pt : point_t D) :
    test_point_body E A prj tgt ll w pt
      = ⟨w.stdout ++ point_cases E A prj.name ll tgt pt, w.calls ++ point_calls E A ll tgt pt⟩ := by
  simp [test_point_body, call_pj_transform, World.printf, World.call, point_cases, point_calls,
    forward_case, inverse_case, forward_xy, inverse_lonlat]

theorem foldl_test_point_body {PJ D : Type} (E : Proj PJ D) (A : Double D) (prj : projection_t)
    (tgt ll : PJ) (points : List (point_t D)) (w : World PJ D) :
    points.foldl (test_point_body E A prj tgt ll) w
      = ⟨w.stdout ++ points.flatMap (point_cases E A prj.name ll tgt),
         w.calls ++ points.flatMap (point_calls E A ll tgt)⟩ := by
  induction points generalizing w with
  | nil => simp
  | cons pt rest ih =>
    rw [List.foldl_cons, ih, test_point_body_eq]
    simp [List.flatMap_cons, List.append_assoc]

theorem process_projection_ok {PJ D : Type} (E : Proj PJ D) (A : Double D)
    (points : List (point_t D)) (prj : projection_t) (w : World PJ D) (ll tgt : PJ)
    (hll : E.pj_init_plus LATLONG = some ll) (htgt : E.pj_init_plus prj.init_string = some tgt) :
    process_projection E A points prj w
      = Step.cont ⟨w.stdout ++ describe_block E A points prj.name ll tgt,
          w.calls ++ block_calls E A points prj ll tgt⟩ := by
  unfold LATLONG at hll
  simp [process_projection, call_pj_init_plus, hll, htgt, foldl_test_point_body, World.printf,
    World.call, describe_block, block_calls, LATLONG, List.append_assoc]

theorem process_projection_no_latlong {PJ D : Type} (E : Proj PJ D) (A : Double D)
    (points : List (point_t D)) (prj : projection_t) (w : World PJ D)
    (hll : E.pj_init_plus LATLONG = none) :
    process_projection E A points prj w
      = Step.exit 1 ⟨w.stdout ++ ["could not init latlong\n"],
          w.calls ++ [Call.init prj.init_string, Call.init LATLONG]⟩ := by
  unfold LATLONG at hll
  simp [process_projection, call_pj_init_plus, hll, World.printf, World.call, LATLONG,
    List.append_assoc]

theorem process_projection_no_target {PJ D : Type} (E : Proj PJ D) (A : Double D)
    (points : List (point_t D)) (prj : projection_t) (w : World PJ D) (ll : PJ)
    (hll : E.pj_init_plus LATLONG = some ll) (htgt : E.pj_init_plus prj.init_string = none) :
    process_projection E A points prj w
      = Step.exit 1
          ⟨w.stdout ++ ["could not init target projection: " ++ prj.init_string ++ "\n"],
           w.calls ++ [Call.init prj.init_string, Call.init LATLONG]⟩ := by
  unfold LATLONG at hll
  simp [process_projection, call_pj_init_plus, hll, htgt, World.printf, World.call, LATLONG,
    List.append_assoc]

theorem emitted_block_of_some {PJ D : Type} (E : Proj PJ D) (A : Double D)
    (points : List (point_t D)) (prj : projection_t) (ll tgt : PJ)
    (hll : E.pj_init_plus LATLONG = some ll) (htgt : E.pj_init_plus prj.init_string = some tgt) :
    emitted_block E A points prj = describe_block E A points prj.name ll tgt := by
  simp [emitted_block, hll, htgt]

theorem emitted_calls_of_some {PJ D : Type} (E : Proj PJ D) (A : Double D)
    (points : List (point_t D)) (prj : projection_t) (ll tgt : PJ)
    (hll : E.pj_init_plus LATLONG = some ll) (htgt : E.pj_init_plus prj.init_string = some tgt) :
    emitted_calls E A points prj = block_calls E A points prj ll tgt := by
  simp [emitted_calls, hll, htgt]

theorem inits_ok_iff {PJ D : Type} (E : Proj PJ D) (prj : projection_t) :
    inits_ok E prj ↔ ∃ ll tgt, E.pj_init_plus LATLONG = some ll
      ∧ E.pj_init_plus prj.init_string = some tgt := by
  unfold inits_ok
  constructor
  · rintro ⟨h1, h2⟩
    obtain ⟨ll, hll⟩ := Option.isSome_iff_exists.mp h1
    obtain ⟨tgt, htgt⟩ := Option.isSome_iff_exists.mp h2
    exact ⟨ll, tgt, hll, htgt⟩
  · rintro ⟨ll, tgt, hll, htgt⟩
    simp [hll, htgt]

theorem process_projection_of_inits_ok {PJ D : Type} (E : Proj PJ D) (A : Double D)
    (points : List (point_t D)) (prj : projection_t) (w : World PJ D) (h : inits_ok E prj) :
    process_projection E A points prj w
      = Step.cont ⟨w.stdout ++ emitted_block E A points prj,
          w.calls ++ emitted_calls E A points prj⟩ := by
  obtain ⟨ll, tgt, hll, htgt⟩ := (inits_ok_iff E prj).mp h
  rw [process_projection_ok E A points prj w ll tgt hll htgt,
    emitted_block_of_some E A points prj ll tgt hll htgt,
    emitted_calls_of_some E A points prj ll tgt hll htgt]

theorem process_projection_of_not_inits_ok {PJ D : Type} (E : Proj PJ D) (A : Double D)
    (points : List (point_t D)) (prj : projection_t) (w : World PJ D) (h : ¬ inits_ok E prj) :
    process_projection E A points prj w
      = Step.exit 1 ⟨w.stdout ++ [init_error E prj],
          w.calls ++ [Call.init prj.init_string, Call.init LATLONG]⟩ := by
  cases hll : E.pj_init_plus LATLONG with
  | none =>
    rw [process_projection_no_latlong E A points prj w hll]
    simp [init_error, hll]
  | some ll =>
    cases htgt : E.pj_init_plus prj.init_string with
    | none =>
      rw [process_projection_no_target E A points prj w ll hll htgt]
      simp [init_error, hll]
    | some tgt => exact absurd ((inits_ok_iff E prj).mpr ⟨ll, tgt, hll, htgt⟩) h

theorem for_projections_append {PJ D : Type} (E : Proj PJ D) (A : Double D)
    (points : List (point_t D)) (pre rest : List projection_t) (w : World PJ D)
    (hpre : ∀ q ∈ pre, inits_ok E q) :
    for_projections E A points (pre ++ rest) w
      = for_projections E A points rest
          ⟨w.stdout ++ pre.flatMap (emitted_block E A points),
           w.calls ++ pre.flatMap (emitted_calls E A points)⟩ := by
  induction pre generalizing w with
  | nil => simp
  | cons q qs ih =>
    have hq : inits_ok E q := hpre q (List.mem_cons_self q qs)
    have hqs : ∀ r ∈ qs, inits_ok E r := fun r hr => hpre r (List.mem_cons_of_mem q hr)
    rw [List.cons_append, for_projections, process_projection_of_inits_ok E A points q w hq]
    simp only [ih _ hqs, List.flatMap_cons, List.append_assoc]

theorem main_all_ok {PJ D : Type} (E : Proj PJ D) (A : Double D)
    (projections : List projection_t) (points : List (point_t D))
    (h : ∀ q ∈ projections, inits_ok E q) :
    main E A projections points
      = (0, ⟨header ++ projections.flatMap (emitted_block E A points) ++ ["end\n"],
             projections.flatMap (emitted_calls E A points)⟩) := by
  have := for_projections_append E A points projections [] ⟨header, []⟩ h
  rw [List.append_nil] at this
  simp only [main, World.printf, List.nil_append, List.cons_append, List.append_assoc]
  simp only [header, List.nil_append, List.cons_append, List.append_assoc] at this
  rw [this]
  simp [for_projections, World.printf, List.append_assoc, header]

theorem main_first_failure {PJ D : Type} (E : Proj PJ D) (A : Double D)
    (pre : List projection_t) (p : projection_t) (post : List projection_t)
    (points : List (point_t D)) (hpre : ∀ q ∈ pre, inits_ok E q) (hp : ¬ inits_ok E p) :
    main E A (pre ++ p :: post) points
      = (1, ⟨header ++ pre.flatMap (emitted_block E A points) ++ [init_error E p],
             pre.flatMap (emitted_calls E A points)
               ++ [Call.init p.init_string, Call.init LATLONG]⟩) := by
  have := for_projections_append E A points pre (p :: post) ⟨header, []⟩ hpre
  simp only [main, World.printf, List.nil_append, List.cons_append, List.append_assoc]
  simp only [header, List.nil_append, List.cons_append, List.append_assoc] at this
  rw [this]
  simp [for_projections, process_projection_of_not_inits_ok E A points p _ hp,
    List.append_assoc, header]

/-! ## From printed strings to lines -/

theorem chunks_text_append (a b : List String) :
    chunks_text (a ++ b) = chunks_text a ++ chunks_text b := by
  simp [chunks_text]

theorem lines_text_append (a b : List String) :
    lines_text (a ++ b) = lines_text a ++ lines_text b := by
  simp [lines_text]

theorem chunks_text_flatMap {α : Type} (l : List α) (f : α → List String) :
    chunks_text (l.flatMap f) = l.flatMap (fun a => chunks_text (f a)) := by
  induction l with
  | nil => simp [chunks_text]
  | cons a rest ih => simp [List.flatMap_cons, chunks_text_append, ih]

theorem lines_text_flatMap {α : Type} (l : List α) (f : α → List String) :
    lines_text (l.flatMap f) = l.flatMap (fun a => lines_text (f a)) := by
  induction l with
  | nil => simp [lines_text]
  | cons a rest ih => simp [List.flatMap_cons, lines_text_append, ih]

theorem data_text {PJ D : Type} (w : World PJ D) : w.text.data = chunks_text w.stdout := by
  simp [World.text, chunks_text]

theorem data_unlines (ls : List String) : (unlines ls).data = lines_text ls := by
  simp [unlines, lines_text, List.flatMap_def, Function.comp_def]

theorem chunks_text_header : chunks_text header = lines_text header_lines := by
  simp [chunks_text, lines_text, header, header_lines]

theorem chunks_text_forward_case {D : Type} (A : Double D) (name : String) (lon lat x y : D) :
    chunks_text (forward_case A name lon lat x y)
      = lines_text (forward_lines A name lon lat x y) := by
  simp [chunks_text, lines_text, forward_case, forward_lines, String.data_append]

theorem chunks_text_inverse_case {D : Type} (A : Double D) (name : String) (x y lon1 lat1 : D) :
    chunks_text (inverse_case A name x y lon1 lat1)
      = lines_text (inverse_lines A name x y lon1 lat1) := by
  simp [chunks_text, lines_text, inverse_case, inverse_lines, String.data_append]

theorem chunks_text_point_cases {PJ D : Type} (E : Proj PJ D) (A : Double D) (name : String)
    (ll tgt : PJ) (pt : point_t D) :
    chunks_text (point_cases E A name ll tgt pt) = lines_text (point_lines E A name ll tgt pt) := by
  rw [point_cases, point_lines, chunks_text_append, lines_text_append,
    chunks_text_forward_case, chunks_text_inverse_case]

theorem chunks_text_describe_block {PJ D : Type} (E : Proj PJ D) (A : Double D)
    (points : List (point_t D)) (name : String) (ll tgt : PJ) :
    chunks_text (describe_block E A points name ll tgt)
      = lines_text (block_lines E A points name ll tgt) := by
  have h1 : chunks_text ["\tdescribe '" ++ name ++ "'\n"]
      = lines_text ["\tdescribe '" ++ name ++ "'"] := by
    simp [chunks_text, lines_text, String.data_append]
  have h2 : chunks_text ["\tend\n\n"] = lines_text ["\tend", ""] := by
    simp [chunks_text, lines_text]
  have e1 : describe_block E A points name ll tgt
      = ["\tdescribe '" ++ name ++ "'\n"] ++ points.flatMap (point_cases E A name ll tgt)
          ++ ["\tend\n\n"] := by
    simp [describe_block]
  have e2 : block_lines E A points name ll tgt
      = ["\tdescribe '" ++ name ++ "'"] ++ points.flatMap (point_lines E A name ll tgt)
          ++ ["\tend", ""] := by
    simp [block_lines]
  rw [e1, e2, chunks_text_append, chunks_text_append, lines_text_append, lines_text_append,
    h1, h2, chunks_text_flatMap, lines_text_flatMap]
  simp only [chunks_text_point_cases]

theorem split_lines_line (l rest : List Char) (h : '\n' ∉ l) :
    split_lines (l ++ '\n' :: rest) = l :: split_lines rest := by
  induction l with
  | nil => simp [split_lines]
  | cons c cs ih =>
    have hc : c ≠ '\n' := fun e => h (by simp [e])
    have hcs : '\n' ∉ cs := fun e => h (List.mem_cons_of_mem c e)
    simp [split_lines, hc, ih hcs]

theorem split_lines_lines_text (ls : List String) (h : ∀ l ∈ ls, '\n' ∉ l.data) :
    split_lines (lines_text ls) = ls.map String.data := by
  induction ls with
  | nil => simp [lines_text, split_lines]
  | cons l rest ih =>
    have hl : '\n' ∉ l.data := h l (List.mem_cons_self l rest)
    have hrest : ∀ k ∈ rest, '\n' ∉ k.data := fun k hk => h k (List.mem_cons_of_mem l hk)
    have e : lines_text (l :: rest) = l.data ++ '\n' :: lines_text rest := by
      simp [lines_text, List.flatMap_cons]
    rw [e, split_lines_line l.data _ hl, ih hrest, List.map_cons]

theorem text_lines_unlines (ls : List String) (h : ∀ l ∈ ls, '\n' ∉ l.data) :
    text_lines (unlines ls) = ls := by
  rw [text_lines, data_unlines, split_lines_lines_text ls h, List.map_map]
  have : (String.mk ∘ String.data) = id := by
    funext s
    rfl
  rw [this, List.map_id]

/-! ## Successful runs -/

theorem inits_ok_of_some {PJ D : Type} (E : Proj PJ D) (projections : List projection_t)
    (ll : PJ) (tgt : projection_t → PJ) (hll : E.pj_init_plus LATLONG = some ll)
    (htgt : ∀ q ∈ projections, E.pj_init_plus q.init_string = some (tgt q)) :
    ∀ q ∈ projections, inits_ok E q := fun q hq =>
  (inits_ok_iff E q).mpr ⟨ll, tgt q, hll, htgt q hq⟩

theorem flatMap_emitted_block {PJ D : Type} (E : Proj PJ D) (A : Double D)
    (projections : List projection_t) (points : List (point_t D))
    (ll : PJ) (tgt : projection_t → PJ) (hll : E.pj_init_plus LATLONG = some ll)
    (htgt : ∀ q ∈ projections, E.pj_init_plus q.init_string = some (tgt q)) :
    projections.flatMap (emitted_block E A points)
      = projections.flatMap (fun prj => describe_block E A points prj.name ll (tgt prj)) :=
  List.flatMap_congr fun q hq => emitted_block_of_some E A points q ll (tgt q) hll (htgt q hq)

theorem flatMap_emitted_calls {PJ D : Type} (E : Proj PJ D) (A : Double D)
    (projections : List projection_t) (points : List (point_t D))
    (ll : PJ) (tgt : projection_t → PJ) (hll : E.pj_init_plus LATLONG = some ll)
    (htgt : ∀ q ∈ projections, E.pj_init_plus q.init_string = some (tgt q)) :
    projections.flatMap (emitted_calls E A points)
      = projections.flatMap (fun prj => block_calls E A points prj ll (tgt prj)) :=
  List.flatMap_congr fun q hq => emitted_calls_of_some E A points q ll (tgt q) hll (htgt q hq)

theorem main_success {PJ D : Type} (E : Proj PJ D) (A : Double D)
    (projections : List projection_t) (points : List (point_t D))
    (ll : PJ) (tgt : projection_t → PJ) (hll : E.pj_init_plus LATLONG = some ll)
    (htgt : ∀ q ∈ projections, E.pj_init_plus q.init_string = some (tgt q)) :
    main E A projections points
      = (0, ⟨header
              ++ projections.flatMap (fun prj => describe_block E A points prj.name ll (tgt prj))
              ++ ["end\n"],
             projections.flatMap (fun prj => block_calls E A points prj ll (tgt prj))⟩) := by
  rw [main_all_ok E A projections points (inits_ok_of_some E projections ll tgt hll htgt),
    flatMap_emitted_block E A projections points ll tgt hll htgt,
    flatMap_emitted_calls E A projections points ll tgt hll htgt]

theorem text_main_success {PJ D : Type} (E : Proj PJ D) (A : Double D)
    (projections : List projection_t) (points : List (point_t D))
    (ll : PJ) (tgt : projection_t → PJ) (hll : E.pj_init_plus LATLONG = some ll)
    (htgt : ∀ q ∈ projections, E.pj_init_plus q.init_string = some (tgt q)) :
    (main E A projections points).2.text = unlines (spec_lines E A projections points ll tgt) := by
  apply String.ext
  rw [data_text, data_unlines, main_success E A projections points ll tgt hll htgt]
  have h3 : chunks_text ["end\n"] = lines_text ["end"] := by
    simp [chunks_text, lines_text]
  simp only [spec_lines, chunks_text_append, lines_text_append, chunks_text_header, h3,
    chunks_text_flatMap, lines_text_flatMap, chunks_text_describe_block]

/-! ## Lines without line breaks -/

theorem forward_lines_clean {D : Type} (A : Double D) (name : String) (lon lat x y : D)
    (hf : ∀ d, '\n' ∉ (A.printf_f d).data) (hg : ∀ d, '\n' ∉ (A.printf_20f d).data)
    (hn : '\n' ∉ name.data) :
    ∀ l ∈ forward_lines A name lon lat x y, '\n' ∉ l.data := by
  intro l hl
  simp only [forward_lines, List.mem_cons, List.mem_singleton, List.not_mem_nil, or_false] at hl
  rcases hl with h | h | h | h | h | h <;> subst h <;>
    simp [String.data_append, hf, hg, hn]

theorem inverse_lines_clean {D : Type} (A : Double D) (name : String) (x y lon1 lat1 : D)
    (hf : ∀ d, '\n' ∉ (A.printf_f d).data) (hg : ∀ d, '\n' ∉ (A.printf_20f d).data)
    (hn : '\n' ∉ name.data) :
    ∀ l ∈ inverse_lines A name x y lon1 lat1, '\n' ∉ l.data := by
  intro l hl
  simp only [inverse_lines, List.mem_cons, List.mem_singleton, List.not_mem_nil, or_false] at hl
  rcases hl with h | h | h | h | h | h <;> subst h <;>
    simp [String.data_append, hf, hg, hn]

theorem block_lines_clean {PJ D : Type} (E : Proj PJ D) (A : Double D)
    (points : List (point_t D)) (name : String) (ll tgt : PJ)
    (hf : ∀ d, '\n' ∉ (A.printf_f d).data) (hg : ∀ d, '\n' ∉ (A.printf_20f d).data)
    (hn : '\n' ∉ name.data) :
    ∀ l ∈ block_lines E A points name ll tgt, '\n' ∉ l.data := by
  intro l hl
  simp only [block_lines, List.cons_append, List.mem_cons, List.mem_append, List.mem_flatMap,
    point_lines, List.mem_singleton, List.not_mem_nil, or_false] at hl
  rcases hl with h | ⟨pt, _, h | h⟩ | h | h
  · subst h
    simp [String.data_append, hn]
  · exact forward_lines_clean A name _ _ _ _ hf hg hn l h
  · exact inverse_lines_clean A name _ _ _ _ hf hg hn l h
  · subst h
    simp
  · subst h
    simp

theorem spec_lines_clean {PJ D : Type} (E : Proj PJ D) (A : Double D)
    (projections : List projection_t) (points : List (point_t D))
    (ll : PJ) (tgt : projection_t → PJ)
    (hf : ∀ d, '\n' ∉ (A.printf_f d).data) (hg : ∀ d, '\n' ∉ (A.printf_20f d).data)
    (hn : ∀ q ∈ projections, '\n' ∉ q.name.data) :
    ∀ l ∈ spec_lines E A projections points ll tgt, '\n' ∉ l.data := by
  intro l hl
  simp only [spec_lines, List.mem_append, List.mem_flatMap, List.mem_singleton] at hl
  rcases hl with (h | ⟨q, hq, h⟩) | h
  · simp only [header_lines, List.mem_cons, List.mem_singleton, List.not_mem_nil, or_false] at h
    rcases h with h | h | h | h | h <;> subst h <;> simp
  · exact block_lines_clean E A points q.name ll (tgt q) hf hg (hn q hq) l h
  · subst h
    simp

theorem lines_main_success {PJ D : Type} (E : Proj PJ D) (A : Double D)
    (projections : List projection_t) (points : List (point_t D))
    (ll : PJ) (tgt : projection_t → PJ) (hll : E.pj_init_plus LATLONG = some ll)
    (htgt : ∀ q ∈ projections, E.pj_init_plus q.init_string = some (tgt q))
    (hf : ∀ d, '\n' ∉ (A.printf_f d).data) (hg : ∀ d, '\n' ∉ (A.printf_20f d).data)
    (hn : ∀ q ∈ projections, '\n' ∉ q.name.data) :
    (main E A projections points).2.lines = spec_lines E A projections points ll tgt := by
  rw [World.lines, text_main_success E A projections points ll tgt hll htgt,
    text_lines_unlines _ (spec_lines_clean E A projections points ll tgt hf hg hn)]

/-! ## Nesting -/

theorem is_end_not_opener (l : String) (h : is_end l = true) : is_opener l = false := by
  simp only [is_end, beq_iff_eq] at h
  simp only [is_opener, h]
  decide

theorem nesting_append (d : Nat) (a b : List String) :
    nesting d (a ++ b) = (nesting d a).bind (fun k => nesting k b) := by
  induction a generalizing d with
  | nil => simp [nesting]
  | cons l rest ih =>
    simp only [List.cons_append, nesting]
    split
    · exact ih (d + 1)
    · split
      · cases d with
        | zero => simp
        | succ k => exact ih k
      · exact ih d

theorem nesting_forward_lines {D : Type} (A : Double D) (name : String) (lon lat x y : D)
    (d : Nat) : nesting d (forward_lines A name lon lat x y) = some d := by
  simp [nesting, forward_lines, is_opener, is_end, strip_tabs, String.data_append]

theorem nesting_inverse_lines {D : Type} (A : Double D) (name : String) (x y lon1 lat1 : D)
    (d : Nat) : nesting d (inverse_lines A name x y lon1 lat1) = some d := by
  simp [nesting, inverse_lines, is_opener, is_end, strip_tabs, String.data_append]

theorem nesting_flatMap {α : Type} (l : List α) (f : α → List String) (d : Nat)
    (h : ∀ a ∈ l, nesting d (f a) = some d) : nesting d (l.flatMap f) = some d := by
  induction l with
  | nil => simp [nesting]
  | cons a rest ih =>
    rw [List.flatMap_cons, nesting_append, h a (List.mem_cons_self a rest)]
    exact ih fun b hb => h b (List.mem_cons_of_mem a hb)

theorem nesting_point_lines {PJ D : Type} (E : Proj PJ D) (A : Double D) (name : String)
    (ll tgt : PJ) (pt : point_t D) (d : Nat) :
    nesting d (point_lines E A name ll tgt pt) = some d := by
  rw [point_lines, nesting_append, nesting_forward_lines]
  exact nesting_inverse_lines A name _ _ _ _ d

theorem nesting_block_lines {PJ D : Type} (E : Proj PJ D) (A : Double D)
    (points : List (point_t D)) (name : String) (ll tgt : PJ) (d : Nat) :
    nesting d (block_lines E A points name ll tgt) = some d := by
  have e : block_lines E A points name ll tgt
      = ["\tdescribe '" ++ name ++ "'"] ++ (points.flatMap (point_lines E A name ll tgt)
          ++ ["\tend", ""]) := by
    simp [block_lines]
  have h1 : nesting d ["\tdescribe '" ++ name ++ "'"] = some (d + 1) := by
    simp [nesting, is_opener, strip_tabs, String.data_append]
  have h2 : nesting (d + 1) ["\tend", ""] = some d := by
    simp [nesting, is_opener, is_end, strip_tabs]
  rw [e, nesting_append, h1, Option.some_bind, nesting_append,
    nesting_flatMap points _ (d + 1) fun pt _ => nesting_point_lines E A name ll tgt pt (d + 1),
    Option.some_bind, h2]

theorem nesting_spec_lines {PJ D : Type} (E : Proj PJ D) (A : Double D)
    (projections : List projection_t) (points : List (point_t D))
    (ll : PJ) (tgt : projection_t → PJ) :
    nesting 0 (spec_lines E A projections points ll tgt) = some 0 := by
  have h1 : nesting 0 header_lines = some 1 := by
    simp [nesting, header_lines, is_opener, is_end, strip_tabs]
  have h2 : nesting 1 ["end"] = some 0 := by
    simp [nesting, is_opener, is_end, strip_tabs]
  rw [spec_lines, List.append_assoc, nesting_append, h1, Option.some_bind, nesting_append,
    nesting_flatMap projections _ 1
      fun q _ => nesting_block_lines E A points q.name ll (tgt q) 1,
    Option.some_bind, h2]

theorem nesting_counts (ls : List String) (d k : Nat) (h : nesting d ls = some k) :
    k + ls.countP is_end = d + ls.countP is_opener
      ∧ ∀ n, (ls.take n).countP is_end ≤ d + (ls.take n).countP is_opener := by
  induction ls generalizing d with
  | nil =>
    simp only [nesting, Option.some.injEq] at h
    simp [h]
  | cons l rest ih =>
    simp only [nesting] at h
    by_cases ho : is_opener l = true
    · have he : is_end l = false := by
        cases hh : is_end l with
        | false => rfl
        | true => rw [is_end_not_opener l hh] at ho; exact absurd ho (by decide)
      rw [if_pos ho] at h
      obtain ⟨h1, h2⟩ := ih (d + 1) h
      refine ⟨?_, ?_⟩
      · simp only [List.countP_cons, ho, he, if_true]
        simp
        omega
      · intro n
        cases n with
        | zero => simp
        | succ m =>
          have := h2 m
          simp only [List.take_succ_cons, List.countP_cons, ho, he, if_true]
          simp
          omega
    · rw [if_neg ho] at h
      have ho2 : is_opener l = false := by simpa using ho
      by_cases he : is_end l = true
      · rw [if_pos he] at h
        cases d with
        | zero => simp at h
        | succ j =>
          simp only at h
          obtain ⟨h1, h2⟩ := ih j h
          refine ⟨?_, ?_⟩
          · simp only [List.countP_cons, ho2, he, if_true]
            simp
            omega
          · intro n
            cases n with
            | zero => simp
            | succ m =>
              have := h2 m
              simp only [List.take_succ_cons, List.countP_cons, ho2, he, if_true]
              simp
              omega
      · rw [if_neg he] at h
        have he2 : is_end l = false := by simpa using he
        obtain ⟨h1, h2⟩ := ih d h
        refine ⟨?_, ?_⟩
        · simp only [List.countP_cons, ho2, he2]
          simp
          omega
        · intro n
          cases n with
          | zero => simp
          | succ m =>
            have := h2 m
            simp only [List.take_succ_cons, List.countP_cons, ho2, he2]
            simp
            omega

/-! ## Counting openers -/

theorem countP_flatMap_const {α : Type} (p : String → Bool) (l : List α) (f : α → List String)
    (c : Nat) (h : ∀ a ∈ l, (f a).countP p = c) : (l.flatMap f).countP p = l.length * c := by
  induction l with
  | nil => simp
  | cons a rest ih =>
    rw [List.flatMap_cons, List.countP_append, h a (List.mem_cons_self a rest),
      ih fun b hb => h b (List.mem_cons_of_mem a hb), List.length_cons]
    ring

theorem openers_forward_lines {D : Type} (A : Double D) (name : String) (lon lat x y : D) :
    (forward_lines A name lon lat x y).countP is_opener = 1 := by
  simp [forward_lines, List.countP_cons, is_opener, strip_tabs, String.data_append]

theorem openers_inverse_lines {D : Type} (A : Double D) (name : String) (x y lon1 lat1 : D) :
    (inverse_lines A name x y lon1 lat1).countP is_opener = 1 := by
  simp [inverse_lines, List.countP_cons, is_opener, strip_tabs, String.data_append]

theorem openers_block_lines {PJ D : Type} (E : Proj PJ D) (A : Double D)
    (points : List (point_t D)) (name : String) (ll tgt : PJ) :
    (block_lines E A points name ll tgt).countP is_opener = 1 + 2 * points.length := by
  have hp : ∀ pt ∈ points, (point_lines E A name ll tgt pt).countP is_opener = 2 := by
    intro pt _
    rw [point_lines, List.countP_append, openers_forward_lines, openers_inverse_lines]
  have h1 : is_opener ("\tdescribe '" ++ name ++ "'") = true := by
    simp [is_opener, strip_tabs, String.data_append]
  have h2 : ["\tend", ""].countP is_opener = 0 := by
    simp [List.countP_cons, is_opener, strip_tabs]
  rw [block_lines, List.cons_append, List.countP_cons, List.countP_append,
    countP_flatMap_const is_opener points _ 2 hp, h2, if_pos h1]
  ring

theorem openers_spec_lines {PJ D : Type} (E : Proj PJ D) (A : Double D)
    (projections : List projection_t) (points : List (point_t D))
    (ll : PJ) (tgt : projection_t → PJ) :
    (spec_lines E A projections points ll tgt).countP is_opener
      = 2 + projections.length * (1 + 2 * points.length) := by
  have h1 : header_lines.countP is_opener = 2 := by
    simp [header_lines, List.countP_cons, is_opener, strip_tabs]
  have h2 : ["end"].countP is_opener = 0 := by
    simp [List.countP_cons, is_opener, strip_tabs]
  rw [spec_lines, List.countP_append, List.countP_append, h1, h2,
    countP_flatMap_const is_opener projections _ (1 + 2 * points.length)
      fun q _ => openers_block_lines E A points q.name ll (tgt q)]
  ring

/-! ## The status of a transform call is not read -/

theorem process_projection_with_status {PJ D : Type} (E : Proj PJ D) (A : Double D)
    (status : PJ → PJ → Nat → Nat → D → D → Option D → Int)
    (points : List (point_t D)) (prj : projection_t) (w : World PJ D) :
    process_projection (E.with_status status) A points prj w
      = process_projection E A points prj w := rfl

theorem for_projections_with_status {PJ D : Type} (E : Proj PJ D) (A : Double D)
    (status : PJ → PJ → Nat → Nat → D → D → Option D → Int)
    (points : List (point_t D)) (projections : List projection_t) (w : World PJ D) :
    for_projections (E.with_status status) A points projections w
      = for_projections E A points projections w := by
  induction projections generalizing w with
  | nil => rfl
  | cons q rest ih =>
    simp only [for_projections, process_projection_with_status]
    cases process_projection E A points q w with
    | cont w1 => exact ih w1
    | exit code w1 => rfl

/-! ## A run up to a projection -/

theorem process_projection_extends {PJ D : Type} (E : Proj PJ D) (A : Double D)
    (points : List (point_t D)) (prj : projection_t) (w : World PJ D) :
    ∃ o c, (process_projection E A points prj w).world = ⟨w.stdout ++ o, w.calls ++ c⟩ := by
  by_cases h : inits_ok E prj
  · rw [process_projection_of_inits_ok E A points prj w h]
    exact ⟨_, _, rfl⟩
  · rw [process_projection_of_not_inits_ok E A points prj w h]
    exact ⟨_, _, rfl⟩

theorem for_projections_extends {PJ D : Type} (E : Proj PJ D) (A : Double D)
    (points : List (point_t D)) (projections : List projection_t) (w : World PJ D) :
    ∃ o c, (for_projections E A points projections w).world
      = ⟨w.stdout ++ o, w.calls ++ c⟩ := by
  induction projections generalizing w with
  | nil => exact ⟨[], [], by simp [for_projections, Step.world]⟩
  | cons q rest ih =>
    obtain ⟨o1, c1, h1⟩ := process_projection_extends E A points q w
    simp only [for_projections]
    cases hq : process_projection E A points q w with
    | cont w1 =>
      rw [hq] at h1
      simp only [Step.world] at h1
      subst h1
      obtain ⟨o2, c2, h2⟩ := ih ⟨w.stdout ++ o1, w.calls ++ c1⟩
      refine ⟨o1 ++ o2, c1 ++ c2, ?_⟩
      simp only [h2, List.append_assoc]
    | exit code w1 =>
      rw [hq] at h1
      exact ⟨o1, c1, h1⟩

theorem main_reaches {PJ D : Type} (E : Proj PJ D) (A : Double D)
    (pre rest : List projection_t) (points : List (point_t D))
    (hpre : ∀ q ∈ pre, inits_ok E q) :
    ∃ o c, (main E A (pre ++ rest) points).2
      = ⟨header ++ pre.flatMap (emitted_block E A points) ++ o,
         pre.flatMap (emitted_calls E A points) ++ c⟩ := by
  have h1 := for_projections_append E A points pre rest ⟨header, []⟩ hpre
  obtain ⟨o, c, h2⟩ := for_projections_extends E A points rest
    ⟨header ++ pre.flatMap (emitted_block E A points),
     [] ++ pre.flatMap (emitted_calls E A points)⟩
  have e : main E A (pre ++ rest) points
      = match for_projections E A points (pre ++ rest) ⟨header, []⟩ with
        | Step.exit code w => (code, w)
        | Step.cont w => (0, w.printf "end\n") := by
    simp [main, World.printf, header]
  rw [e, h1]
  cases hr : for_projections E A points rest
      ⟨header ++ pre.flatMap (emitted_block E A points),
       [] ++ pre.flatMap (emitted_calls E A points)⟩ with
  | cont w1 =>
    rw [hr] at h2
    simp only [Step.world] at h2
    refine ⟨o ++ ["end\n"], c, ?_⟩
    simp [h2, World.printf, List.append_assoc]
  | exit code w1 =>
    rw [hr] at h2
    simp only [Step.world] at h2
    refine ⟨o, c, ?_⟩
    simp [h2, List.append_assoc]

theorem first_failure_split {α : Type} (P : α → Prop) (l : List α) :
    (∀ q ∈ l, P q) ∨ ∃ pre p post, l = pre ++ p :: post ∧ (∀ q ∈ pre, P q) ∧ ¬ P p := by
  induction l with
  | nil => exact Or.inl (by simp)
  | cons a rest ih =>
    by_cases ha : P a
    · rcases ih with h | ⟨pre, p, post, e, hpre, hp⟩
      · left
        intro q hq
        rcases List.mem_cons.mp hq with h1 | h1
        · exact h1 ▸ ha
        · exact h q h1
      · right
        refine ⟨a :: pre, p, post, by simp [e], ?_, hp⟩
        intro q hq
        rcases List.mem_cons.mp hq with h1 | h1
        · exact h1 ▸ ha
        · exact hpre q h1
    · exact Or.inr ⟨[], a, rest, rfl, by simp, ha⟩

/-! ## Counting printed strings -/

theorem count_it_point_cases {PJ D : Type} (E : Proj PJ D) (A : Double D) (name : String)
    (ll tgt : PJ) (pt : point_t D) : (point_cases E A name ll tgt pt).countP is_it = 2 := by
  simp [point_cases, forward_case, inverse_case, List.countP_cons, is_it, String.data_append]

theorem count_it_describe_block {PJ D : Type} (E : Proj PJ D) (A : Double D)
    (points : List (point_t D)) (name : String) (ll tgt : PJ) :
    (describe_block E A points name ll tgt).countP is_it = 2 * points.length := by
  have h1 : is_it ("\tdescribe '" ++ name ++ "'\n") = false := by
    simp [is_it, String.data_append, List.isPrefixOf]
  have h2 : ["\tend\n\n"].countP is_it = 0 := by
    simp [List.countP_cons, is_it]
  rw [describe_block, List.cons_append, List.countP_cons, List.countP_append,
    countP_flatMap_const is_it points _ 2
      fun pt _ => count_it_point_cases E A name ll tgt pt, h2, h1]
  simp
  ring

theorem filter_describe_point_cases {PJ D : Type} (E : Proj PJ D) (A : Double D)
    (name : String) (ll tgt : PJ) (pt : point_t D) :
    (point_cases E A name ll tgt pt).filter is_describe = [] := by
  simp [point_cases, forward_case, inverse_case, List.filter_cons, is_describe,
    String.data_append]

theorem filter_describe_block {PJ D : Type} (E : Proj PJ D) (A : Double D)
    (points : List (point_t D)) (name : String) (ll tgt : PJ) :
    (describe_block E A points name ll tgt).filter is_describe
      = ["\tdescribe '" ++ name ++ "'\n"] := by
  have h1 : is_describe ("\tdescribe '" ++ name ++ "'\n") = true := by
    simp [is_describe, String.data_append]
  have h2 : ["\tend\n\n"].filter is_describe = [] := by
    simp [List.filter_cons, is_describe]
  have h3 : (points.flatMap (point_cases E A name ll tgt)).filter is_describe = [] := by
    induction points with
    | nil => simp
    | cons pt rest ih =>
      rw [List.flatMap_cons, List.filter_append, filter_describe_point_cases, ih]
      rfl
  rw [describe_block, List.cons_append, List.filter_cons, if_pos h1, List.filter_append, h2, h3]
  rfl

theorem filter_describe_emitted {PJ D : Type} (E : Proj PJ D) (A : Double D)
    (points : List (point_t D)) (pre : List projection_t) (hpre : ∀ q ∈ pre, inits_ok E q) :
    (pre.flatMap (emitted_block E A points)).filter is_describe
      = pre.map (fun q => "\tdescribe '" ++ q.name ++ "'\n") := by
  induction pre with
  | nil => simp
  | cons q rest ih =>
    obtain ⟨ll, tgt, hll, htgt⟩ := (inits_ok_iff E q).mp (hpre q (List.mem_cons_self q rest))
    rw [List.flatMap_cons, List.filter_append, ih fun r hr => hpre r (List.mem_cons_of_mem q hr),
      emitted_block_of_some E A points q ll tgt hll htgt, filter_describe_block]
    rfl

theorem filter_describe_header : header.filter is_describe = [] := by
  simp [header, List.filter_cons, is_describe]

theorem is_describe_init_error {PJ D : Type} (E : Proj PJ D) (p : projection_t) :
    is_describe (init_error E p) = false := by
  unfold init_error
  cases E.pj_init_plus LATLONG <;> simp [is_describe, String.data_append, List.isPrefixOf]

/-! ## The concrete number texts contain no line break -/

theorem digit_ne_newline (k : Nat) : digit k ≠ '\n' := by
  unfold digit
  split <;> decide

theorem decimal_clean (w n : Nat) : '\n' ∉ decimal w n := by
  induction w generalizing n with
  | zero => simp [decimal]
  | succ w ih =>
    simp only [decimal, List.mem_append, List.mem_singleton, not_or]
    exact ⟨ih (n / 10), fun e => digit_ne_newline n e.symm⟩

theorem natural_clean (fuel n : Nat) : '\n' ∉ natural fuel n := by
  induction fuel generalizing n with
  | zero => simp [natural]
  | succ f ih =>
    simp only [natural]
    split
    · simp only [List.mem_singleton]
      exact fun e => digit_ne_newline n e.symm
    · simp only [List.mem_append, List.mem_singleton, not_or]
      exact ⟨ih (n / 10), fun e => digit_ne_newline n e.symm⟩

theorem fixed_render_clean (digits : Nat) (v : Int) : '\n' ∉ (fixed_render digits v).data := by
  simp only [fixed_render, List.mem_append, List.mem_singleton, not_or]
  refine ⟨⟨⟨?_, natural_clean _ _⟩, by decide⟩, decimal_clean _ _⟩
  split <;> simp

/-! ## The claims -/

/-- C1 (round-trip recording consistency).  Whenever the run reaches a
projection (the latlong context, the target contexts of the projections before
it and its own target context are created), then for every reference point the
program prints, one after the other, the forward test case and the inverse
test case of the point, and the values `x`, `y` printed as the expected
`xy.x` / `xy.y` of the forward case are the very values printed as the
arguments of the `inverse` call: both are what the forward `pj_transform` call
left in `x` and `y`.  The inverse `pj_transform` call follows the forward call
and receives exactly these values. -/
theorem roundtrip_recording_consistency {PJ D : Type} (E : Proj PJ D) (A : Double D)
    (pre : List projection_t) (prj : projection_t) (post : List projection_t)
    (ps : List (point_t D)) (pt : point_t D) (qs : List (point_t D)) (ll tgt : PJ)
    (hll : E.pj_init_plus "+proj=latlong +ellps=WGS84" = some ll)
    (hpre : ∀ q ∈ pre, E.pj_init_plus q.init_string ≠ none)
    (htgt : E.pj_init_plus prj.init_string = some tgt) :
    let fwd := E.pj_transform ll tgt 1 1 (A.mul pt.x A.DEG_TO_RAD) (A.mul pt.y A.DEG_TO_RAD) none
    let inv := E.pj_transform tgt ll 1 1 fwd.2.1 fwd.2.2 none
    let run := main E A (pre ++ prj :: post) (ps ++ pt :: qs)
    (forward_case A prj.name pt.x pt.y fwd.2.1 fwd.2.2
        ++ inverse_case A prj.name fwd.2.1 fwd.2.2
            (A.mul inv.2.1 A.RAD_TO_DEG) (A.mul inv.2.2 A.RAD_TO_DEG)) <:+: run.2.stdout
    ∧ [Call.transform ll tgt 1 1 (A.mul pt.x A.DEG_TO_RAD) (A.mul pt.y A.DEG_TO_RAD) none,
        Call.transform tgt ll 1 1 fwd.2.1 fwd.2.2 none] <:+: run.2.calls := by
  intro fwd inv run
  have hll1 : E.pj_init_plus LATLONG = some ll := hll
  have hok : ∀ q ∈ pre ++ [prj], inits_ok E q := by
    intro q hq
    rcases List.mem_append.mp hq with h | h
    · exact ⟨by rw [hll1]; rfl, Option.ne_none_iff_isSome.mp (hpre q h)⟩
    · rw [List.mem_singleton.mp h]
      exact (inits_ok_iff E prj).mpr ⟨ll, tgt, hll1, htgt⟩
  obtain ⟨o, c, h⟩ := main_reaches E A (pre ++ [prj]) post (ps ++ pt :: qs) hok
  have e : pre ++ prj :: post = (pre ++ [prj]) ++ post := by simp
  have hrun : run.2 = ⟨header ++ (pre ++ [prj]).flatMap (emitted_block E A (ps ++ pt :: qs)) ++ o,
      (pre ++ [prj]).flatMap (emitted_calls E A (ps ++ pt :: qs)) ++ c⟩ := by
    show (main E A (pre ++ prj :: post) (ps ++ pt :: qs)).2 = _
    rw [e, h]
  rw [hrun]
  simp only [List.flatMap_append, List.flatMap_cons, List.flatMap_nil, List.append_nil,
    emitted_block_of_some E A (ps ++ pt :: qs) prj ll tgt hll1 htgt,
    emitted_calls_of_some E A (ps ++ pt :: qs) prj ll tgt hll1 htgt,
    describe_block, block_calls]
  constructor
  · refine ⟨header ++ pre.flatMap (emitted_block E A (ps ++ pt :: qs))
        ++ ["\tdescribe '" ++ prj.name ++ "'\n"] ++ ps.flatMap (point_cases E A prj.name ll tgt),
      qs.flatMap (point_cases E A prj.name ll tgt) ++ ["\tend\n\n"] ++ o, ?_⟩
    simp [point_cases, forward_xy, inverse_lonlat, fwd, inv, List.append_assoc]
  · refine ⟨pre.flatMap (emitted_calls E A (ps ++ pt :: qs))
        ++ [Call.init prj.init_string, Call.init LATLONG]
        ++ ps.flatMap (point_calls E A ll tgt),
      qs.flatMap (point_calls E A ll tgt) ++ c, ?_⟩
    simp [point_calls, forward_xy, fwd, List.append_assoc]

/-- Witness of C1: the equirectangular engine on the program's own tables, at
the reference point (0, 45). -/
theorem roundtrip_recording_consistency_witness :
    equirect.pj_init_plus "+proj=latlong +ellps=WGS84" = some Frame.latlong
    ∧ equirect.pj_init_plus
        (projection_t.mk "+proj=merc +a=6378137 +b=6378137 +lat_ts=0.0 +lon_0=0.0 +x_0=0.0 +y_0=0 +k=1.0 +units=m +nadgrids=@null +no_defs" "WebMercator").init_string
        = some Frame.planar
    ∧ (let pt : point_t Int := ⟨fixed.ofInt 0, fixed.ofInt 45⟩
       let fwd := equirect.pj_transform Frame.latlong Frame.planar 1 1
         (fixed.mul pt.x fixed.DEG_TO_RAD) (fixed.mul pt.y fixed.DEG_TO_RAD) none
       let inv := equirect.pj_transform Frame.planar Frame.latlong 1 1 fwd.2.1 fwd.2.2 none
       (forward_case fixed "WebMercator" pt.x pt.y fwd.2.1 fwd.2.2
          ++ inverse_case fixed "WebMercator" fwd.2.1 fwd.2.2
              (fixed.mul inv.2.1 fixed.RAD_TO_DEG) (fixed.mul inv.2.2 fixed.RAD_TO_DEG))
         <:+: (projtest equirect fixed).2.stdout
       ∧ [Call.transform Frame.latlong Frame.planar 1 1
            (fixed.mul pt.x fixed.DEG_TO_RAD) (fixed.mul pt.y fixed.DEG_TO_RAD) none,
          Call.transform Frame.planar Frame.latlong 1 1 fwd.2.1 fwd.2.2 none]
         <:+: (projtest equirect fixed).2.calls) :=
  ⟨by decide, by decide,
   roundtrip_recording_consistency equirect fixed []
     ⟨"+proj=merc +a=6378137 +b=6378137 +lat_ts=0.0 +lon_0=0.0 +x_0=0.0 +y_0=0 +k=1.0 +units=m +nadgrids=@null +no_defs", "WebMercator"⟩
     []
     [⟨fixed.mul (fixed.ofInt 1) fixed.RAD_TO_DEG, fixed.mul (fixed.ofInt 1) fixed.RAD_TO_DEG⟩,
      ⟨fixed.ofInt 0, fixed.ofInt 0⟩]
     ⟨fixed.ofInt 0, fixed.ofInt 45⟩
     [⟨fixed.ofInt 0, fixed.ofInt 85⟩, ⟨fixed.ofInt 0, fixed.ofInt (-85)⟩,
      ⟨fixed.ofInt 180, fixed.ofInt 0⟩, ⟨fixed.ofInt (-180), fixed.ofInt 0⟩,
      ⟨fixed.ofInt 45, fixed.ofInt 45⟩]
     Frame.latlong Frame.planar (by decide) (by simp) (by decide)⟩

/-- C2 (order preservation).  In every successful run (all contexts are
created) the exit code is 0 and the strings printed are, in this order: the
header; for each projection in the order of the registry, its `describe`
string, then for each reference point in the order of the point table its
forward test case immediately followed by its inverse test case, then the
`end` of the block; and the closing `end`.  The `describe` strings printed are
those of the registry, one per entry and in its order, and every block holds
exactly `2 * |points|` strings that open an `it` block.  When no number text
and no name contains a line break, the lines of the output are, in the same
order, the lines of the header, of the blocks and the closing `end`. -/
theorem order_preservation {PJ D : Type} (E : Proj PJ D) (A : Double D)
    (projections : List projection_t) (points : List (point_t D))
    (ll : PJ) (tgt : projection_t → PJ)
    (hll : E.pj_init_plus "+proj=latlong +ellps=WGS84" = some ll)
    (htgt : ∀ q ∈ projections, E.pj_init_plus q.init_string = some (tgt q)) :
    (main E A projections points).1 = 0
    ∧ (main E A projections points).2.stdout
        = header
          ++ projections.flatMap (fun prj =>
              ("\tdescribe '" ++ prj.name ++ "'\n")
              :: points.flatMap (fun pt =>
                  forward_case A prj.name pt.x pt.y
                    (forward_xy E A ll (tgt prj) pt).1 (forward_xy E A ll (tgt prj) pt).2
                  ++ inverse_case A prj.name
                    (forward_xy E A ll (tgt prj) pt).1 (forward_xy E A ll (tgt prj) pt).2
                    (inverse_lonlat E A ll (tgt prj) pt).1 (inverse_lonlat E A ll (tgt prj) pt).2)
              ++ ["\tend\n\n"])
          ++ ["end\n"]
    ∧ (main E A projections points).2.stdout.filter is_describe
        = projections.map (fun prj => "\tdescribe '" ++ prj.name ++ "'\n")
    ∧ (∀ prj ∈ projections,
        (describe_block E A points prj.name ll (tgt prj)).countP is_it = 2 * points.length)
    ∧ ((∀ d, '\n' ∉ (A.printf_f d).data) → (∀ d, '\n' ∉ (A.printf_20f d).data) →
        (∀ q ∈ projections, '\n' ∉ q.name.data) →
        (main E A projections points).2.lines
          = header_lines
            ++ projections.flatMap (fun prj =>
                ("\tdescribe '" ++ prj.name ++ "'")
                :: points.flatMap (fun pt =>
                    forward_lines A prj.name pt.x pt.y
                      (forward_xy E A ll (tgt prj) pt).1 (forward_xy E A ll (tgt prj) pt).2
                    ++ inverse_lines A prj.name
                      (forward_xy E A ll (tgt prj) pt).1 (forward_xy E A ll (tgt prj) pt).2
                      (inverse_lonlat E A ll (tgt prj) pt).1
                      (inverse_lonlat E A ll (tgt prj) pt).2)
                ++ ["\tend", ""])
            ++ ["end"]) := by
  have hll1 : E.pj_init_plus LATLONG = some ll := hll
  have hok := inits_ok_of_some E projections ll tgt hll1 htgt
  refine ⟨?_, ?_, ?_, ?_, ?_⟩
  · rw [main_success E A projections points ll tgt hll1 htgt]
  · rw [main_success E A projections points ll tgt hll1 htgt]
    rfl
  · have hend : ["end\n"].filter is_describe = [] := by
      simp [List.filter_cons, is_describe, List.isPrefixOf]
    rw [main_all_ok E A projections points hok]
    simp only [List.filter_append, filter_describe_header, hend,
      filter_describe_emitted E A points projections hok, List.nil_append, List.append_nil]
  · intro prj _
    exact count_it_describe_block E A points prj.name ll (tgt prj)
  · intro hf hg hn
    rw [lines_main_success E A projections points ll tgt hll1 htgt hf hg hn]
    rfl

/-- Witness of C2: the equirectangular engine on the program's own tables. -/
theorem order_preservation_witness :
    equirect.pj_init_plus "+proj=latlong +ellps=WGS84" = some Frame.latlong
    ∧ (∀ q ∈ PROJECTIONS, equirect.pj_init_plus q.init_string = some Frame.planar)
    ∧ (projtest equirect fixed).1 = 0
    ∧ (projtest equirect fixed).2.stdout.filter is_describe = ["\tdescribe 'WebMercator'\n"]
    ∧ (∀ prj ∈ PROJECTIONS,
        (describe_block equirect fixed (TEST_POINTS fixed) prj.name Frame.latlong
          Frame.planar).countP is_it = 16)
    ∧ (∀ d, '\n' ∉ (fixed.printf_f d).data) ∧ (∀ d, '\n' ∉ (fixed.printf_20f d).data)
    ∧ (∀ q ∈ PROJECTIONS, '\n' ∉ q.name.data)
    ∧ ((projtest equirect fixed).2.lines.take 6).getLast? = some "\tdescribe 'WebMercator'" :=
  have h := order_preservation equirect fixed PROJECTIONS (TEST_POINTS fixed) Frame.latlong
    (fun _ => Frame.planar) (by decide) (by decide)
  ⟨by decide, by decide, h.1, h.2.2.1, h.2.2.2.1, fixed_render_clean 6, fixed_render_clean 20,
   by decide,
   by rw [show (projtest equirect fixed).2.lines = _ from
            h.2.2.2.2 (fixed_render_clean 6) (fixed_render_clean 20) (by decide)]
      rfl⟩

/-- Counterexample to C3: the forward transform of the reference point (0, 85)
reports a failure (status -14), and yet the run goes on to the closing `end`,
exits with code 0 and prints the test case built from what the failed call
left in `x` and `y`. -/
theorem transform_error_not_fatal :
    (⟨fixed.ofInt 0, fixed.ofInt 85⟩ : point_t Int) ∈ TEST_POINTS fixed
    ∧ (bounded.pj_transform Frame.latlong Frame.planar 1 1
        (fixed.mul (fixed.ofInt 0) fixed.DEG_TO_RAD) (fixed.mul (fixed.ofInt 85) fixed.DEG_TO_RAD)
        none).1 ≠ 0
    ∧ (projtest bounded fixed).1 = 0
    ∧ (projtest bounded fixed).2.stdout.getLast? = some "end\n"
    ∧ forward_case fixed "WebMercator" (fixed.ofInt 0) (fixed.ofInt 85)
        (bounded.pj_transform Frame.latlong Frame.planar 1 1
          (fixed.mul (fixed.ofInt 0) fixed.DEG_TO_RAD)
          (fixed.mul (fixed.ofInt 85) fixed.DEG_TO_RAD) none).2.1
        (bounded.pj_transform Frame.latlong Frame.planar 1 1
          (fixed.mul (fixed.ofInt 0) fixed.DEG_TO_RAD)
          (fixed.mul (fixed.ofInt 85) fixed.DEG_TO_RAD) none).2.2
      <:+: (projtest bounded fixed).2.stdout := by
  decide

/-- C3 as amended (the status of a transform call is not read).  For every
engine, replacing the status codes its `pj_transform` reports by any others
changes nothing of the run: same exit code, same output, same calls.  A
reported failure therefore never stops the run: whenever all contexts are
created the exit code is 0, whatever the transform calls report. -/
theorem transform_status_ignored {PJ D : Type} (E : Proj PJ D) (A : Double D)
    (status : PJ → PJ → Nat → Nat → D → D → Option D → Int)
    (projections : List projection_t) (points : List (point_t D)) :
    main (E.with_status status) A projections points = main E A projections points
    ∧ ((∀ q ∈ projections, inits_ok E q) →
        (main (E.with_status status) A projections points).1 = 0) := by
  have h : main (E.with_status status) A projections points = main E A projections points := by
    simp only [main, for_projections_with_status]
  refine ⟨h, fun hok => ?_⟩
  rw [h, main_all_ok E A projections points hok]

/-- Witness of C3 as amended: every transform call of the equirectangular
engine is made to report the failure -14. -/
theorem transform_status_ignored_witness :
    (∀ q ∈ PROJECTIONS, inits_ok equirect q)
    ∧ main (equirect.with_status (fun _ _ _ _ _ _ _ => -14)) fixed PROJECTIONS (TEST_POINTS fixed)
        = main equirect fixed PROJECTIONS (TEST_POINTS fixed)
    ∧ (main (equirect.with_status (fun _ _ _ _ _ _ _ => -14)) fixed PROJECTIONS
        (TEST_POINTS fixed)).1 = 0 :=
  have h := transform_status_ignored equirect fixed (fun _ _ _ _ _ _ _ => -14) PROJECTIONS
    (TEST_POINTS fixed)
  ⟨by decide, h.1, h.2 (by decide)⟩

/-- Counterexample to C4: the target context of `WebMercator` cannot be
created; the run exits with code 1, the last string printed is the error
message, and the name `WebMercator` occurs nowhere in the output. -/
theorem init_error_lacks_name :
    latlong_only.pj_init_plus "+proj=latlong +ellps=WGS84" = some Frame.latlong
    ∧ (∀ q ∈ PROJECTIONS, q.name = "WebMercator" ∧ latlong_only.pj_init_plus q.init_string = none)
    ∧ (projtest latlong_only fixed).1 = 1
    ∧ (projtest latlong_only fixed).2.stdout.getLast?
        = some "could not init target projection: +proj=merc +a=6378137 +b=6378137 +lat_ts=0.0 +lon_0=0.0 +x_0=0.0 +y_0=0 +k=1.0 +units=m +nadgrids=@null +no_defs\n"
    ∧ ¬ "WebMercator".data <:+: (projtest latlong_only fixed).2.text.data := by
  decide

/-- C4 as amended.  When the latlong context is created, the run reaches a
projection and its target context cannot be created, the run exits with code 1
and the last string printed is `could not init target projection: ` followed
by the raw definition string of the projection and a newline: the message
includes the definition string (the name is not printed). -/
theorem init_error_names_definition {PJ D : Type} (E : Proj PJ D) (A : Double D)
    (pre : List projection_t) (p : projection_t) (post : List projection_t)
    (points : List (point_t D)) (ll : PJ)
    (hll : E.pj_init_plus "+proj=latlong +ellps=WGS84" = some ll)
    (hpre : ∀ q ∈ pre, E.pj_init_plus q.init_string ≠ none)
    (hp : E.pj_init_plus p.init_string = none) :
    (main E A (pre ++ p :: post) points).1 = 1
    ∧ (main E A (pre ++ p :: post) points).2.stdout.getLast?
        = some ("could not init target projection: " ++ p.init_string ++ "\n")
    ∧ p.init_string.data
        <:+: ("could not init target projection: " ++ p.init_string ++ "\n").data := by
  have hll1 : E.pj_init_plus LATLONG = some ll := hll
  have hok : ∀ q ∈ pre, inits_ok E q := fun q hq =>
    ⟨by rw [hll1]; rfl, Option.ne_none_iff_isSome.mp (hpre q hq)⟩
  have hno : ¬ inits_ok E p := fun h => by
    have h2 := h.2
    rw [hp] at h2
    exact Bool.noConfusion h2
  have herr : init_error E p = "could not init target projection: " ++ p.init_string ++ "\n" := by
    simp [init_error, hll1]
  rw [main_first_failure E A pre p post points hok hno, herr]
  refine ⟨rfl, by simp, ?_⟩
  exact ⟨"could not init target projection: ".data, "\n".data, by simp [String.data_append]⟩

/-- Witness of C4 as amended: an engine that creates the latlong context only. -/
theorem init_error_names_definition_witness :
    latlong_only.pj_init_plus "+proj=latlong +ellps=WGS84" = some Frame.latlong
    ∧ latlong_only.pj_init_plus "+proj=tmerc +lon_0=9" = none
    ∧ (main latlong_only fixed ([] ++ ⟨"+proj=tmerc +lon_0=9", "Gauss"⟩ :: PROJECTIONS)
        (TEST_POINTS fixed)).2.stdout.getLast?
        = some ("could not init target projection: "
            ++ (projection_t.mk "+proj=tmerc +lon_0=9" "Gauss").init_string ++ "\n") :=
  ⟨by decide, by decide,
   (init_error_names_definition latlong_only fixed [] ⟨"+proj=tmerc +lon_0=9", "Gauss"⟩
     PROJECTIONS (TEST_POINTS fixed) Frame.latlong (by decide) (by simp) (by decide)).2.1⟩

/-- C5 (configuration errors).  Let the creation of the latlong context or of
the target context fail for the k-th projection `p` of the registry.  Then the
exit code is 1, and the output is the header, the complete blocks of the
projections before the first projection `p1` whose contexts cannot be created
(projections that come before `p`; all of them, and `p1 = p`, when the run
reaches `p`) and the error message, nothing else: the `describe` strings
printed are those of projections before `p`, none for `p` or for a projection
after it, and the last calls made are the two context creations for `p1`.  If
no context creation fails, the exit code is 0. -/
theorem configuration_error_handling {PJ D : Type} (E : Proj PJ D) (A : Double D)
    (points : List (point_t D)) :
    (∀ (pre : List projection_t) (p : projection_t) (post : List projection_t),
      ¬ inits_ok E p →
        (main E A (pre ++ p :: post) points).1 = 1
        ∧ ∃ pre1 p1, pre1 <+: pre ∧ (∀ q ∈ pre1, inits_ok E q) ∧ ¬ inits_ok E p1
            ∧ ((∀ q ∈ pre, inits_ok E q) → pre1 = pre ∧ p1 = p)
            ∧ (main E A (pre ++ p :: post) points).2.stdout
                = header ++ pre1.flatMap (emitted_block E A points) ++ [init_error E p1]
            ∧ (main E A (pre ++ p :: post) points).2.stdout.filter is_describe
                = pre1.map (fun q => "\tdescribe '" ++ q.name ++ "'\n")
            ∧ (main E A (pre ++ p :: post) points).2.calls
                = pre1.flatMap (emitted_calls E A points)
                  ++ [Call.init p1.init_string, Call.init "+proj=latlong +ellps=WGS84"])
    ∧ (∀ projections : List projection_t,
        (∀ q ∈ projections, inits_ok E q) → (main E A projections points).1 = 0) := by
  have key : ∀ (pre1 : List projection_t) (p1 : projection_t) (post1 : List projection_t),
      (∀ q ∈ pre1, inits_ok E q) → ¬ inits_ok E p1 →
        (main E A (pre1 ++ p1 :: post1) points).1 = 1
        ∧ (main E A (pre1 ++ p1 :: post1) points).2.stdout
            = header ++ pre1.flatMap (emitted_block E A points) ++ [init_error E p1]
        ∧ (main E A (pre1 ++ p1 :: post1) points).2.stdout.filter is_describe
            = pre1.map (fun q => "\tdescribe '" ++ q.name ++ "'\n")
        ∧ (main E A (pre1 ++ p1 :: post1) points).2.calls
            = pre1.flatMap (emitted_calls E A points)
              ++ [Call.init p1.init_string, Call.init "+proj=latlong +ellps=WGS84"] := by
    intro pre1 p1 post1 hpre hp
    rw [main_first_failure E A pre1 p1 post1 points hpre hp]
    refine ⟨rfl, rfl, ?_, rfl⟩
    have herr : [init_error E p1].filter is_describe = [] := by
      simp [List.filter_cons, is_describe_init_error]
    simp only [List.filter_append, filter_describe_header, herr,
      filter_describe_emitted E A points pre1 hpre, List.nil_append, List.append_nil]
  constructor
  · intro pre p post hp
    rcases first_failure_split (inits_ok E) pre with hok | ⟨a, b, c, e, ha, hb⟩
    · obtain ⟨h1, h2, h3, h4⟩ := key pre p post hok hp
      exact ⟨h1, pre, p, List.prefix_refl pre, hok, hp, fun _ => ⟨rfl, rfl⟩, h2, h3, h4⟩
    · have e2 : pre ++ p :: post = a ++ b :: (c ++ p :: post) := by
        rw [e]
        simp
      obtain ⟨h1, h2, h3, h4⟩ := key a b (c ++ p :: post) ha hb
      rw [e2]
      refine ⟨h1, a, b, ?_, ha, hb, ?_, h2, h3, h4⟩
      · rw [e]
        exact List.prefix_append a (b :: c)
      · intro hall
        exact absurd (hall b (by rw [e]; simp)) hb
  · intro projections hok
    rw [main_all_ok E A projections points hok]

/-- Witness of C5: the second projection of a registry of three cannot be
created; and the program's own registry on an engine that creates all. -/
theorem configuration_error_handling_witness :
    (∀ q ∈ [projection_t.mk "+proj=merc" "Mercator"], inits_ok equirect q)
    ∧ ¬ inits_ok equirect ⟨"proj=utm", "UTM"⟩
    ∧ (main equirect fixed
        ([⟨"+proj=merc", "Mercator"⟩] ++ ⟨"proj=utm", "UTM"⟩ :: [⟨"+proj=eqc", "Plate"⟩])
        (TEST_POINTS fixed)).1 = 1
    ∧ (main equirect fixed
        ([⟨"+proj=merc", "Mercator"⟩] ++ ⟨"proj=utm", "UTM"⟩ :: [⟨"+proj=eqc", "Plate"⟩])
        (TEST_POINTS fixed)).2.stdout.filter is_describe
        = [projection_t.mk "+proj=merc" "Mercator"].map
            (fun q => "\tdescribe '" ++ q.name ++ "'\n")
    ∧ (∀ q ∈ PROJECTIONS, inits_ok equirect q)
    ∧ (main equirect fixed PROJECTIONS (TEST_POINTS fixed)).1 = 0 :=
  have h := configuration_error_handling equirect fixed (TEST_POINTS fixed)
  have h1 := h.1 [⟨"+proj=merc", "Mercator"⟩] ⟨"proj=utm", "UTM"⟩ [⟨"+proj=eqc", "Plate"⟩]
    (by decide)
  ⟨by decide, by decide, h1.1,
   (match h1.2 with
    | ⟨_, _, _, _, _, heq, _, hfilter, _⟩ => (heq (by decide)).1 ▸ hfilter),
   by decide, h.2 PROJECTIONS (by decide)⟩

/-- Counterexample to C6: no context can be created; the run exits with code
1, and the header of the specification has been written before the error
message. -/
theorem partial_output_on_init_failure :
    (∀ q ∈ PROJECTIONS, ¬ inits_ok no_context q)
    ∧ (projtest no_context fixed).1 = 1
    ∧ (projtest no_context fixed).2.stdout
        = [ "describe 'Projections'\n", "\tbefore_each\n",
            "\t\tProjections=nanocore.Projections\n", "\tend\n\n",
            "could not init latlong\n" ]
    ∧ (projtest no_context fixed).2.text ≠ "could not init latlong\n" := by
  decide

/-- C6 as amended.  Every run either creates all contexts, exits with code 0
and writes the full specification (header, every projection block, closing
`end`), or stops at the first projection `p` one of whose contexts cannot be
created: it then exits with code 1 having written the header, the complete
blocks of the projections before `p` and the error message, and not the
closing `end`. -/
theorem full_output_or_abort_after_prefix {PJ D : Type} (E : Proj PJ D) (A : Double D)
    (projections : List projection_t) (points : List (point_t D)) :
    ((∀ q ∈ projections, inits_ok E q)
      ∧ (main E A projections points).1 = 0
      ∧ (main E A projections points).2.stdout
          = header ++ projections.flatMap (emitted_block E A points) ++ ["end\n"])
    ∨ (∃ pre p post, projections = pre ++ p :: post
      ∧ (∀ q ∈ pre, inits_ok E q) ∧ ¬ inits_ok E p
      ∧ (main E A projections points).1 = 1
      ∧ (main E A projections points).2.stdout
          = header ++ pre.flatMap (emitted_block E A points) ++ [init_error E p]
      ∧ (main E A projections points).2.stdout.getLast? ≠ some "end\n") := by
  rcases first_failure_split (inits_ok E) projections with hok | ⟨pre, p, post, e, hpre, hp⟩
  · left
    rw [main_all_ok E A projections points hok]
    exact ⟨hok, rfl, rfl⟩
  · right
    refine ⟨pre, p, post, e, hpre, hp, ?_⟩
    rw [e, main_first_failure E A pre p post points hpre hp]
    refine ⟨rfl, rfl, ?_⟩
    have hne : init_error E p ≠ "end\n" := by
      intro h
      have h2 := congrArg String.data h
      unfold init_error at h2
      cases hl : E.pj_init_plus LATLONG <;> rw [hl] at h2 <;> simp [String.data_append] at h2
    simpa using hne

/-- C7 (driver protocol and unit conversion).  For a projection whose two
contexts are created, `process_projection` returns to its caller, and:
the target context is asked for with the definition string of the projection
as it stands, the latlong context with `+proj=latlong +ellps=WGS84`, which
names the WGS84 ellipsoid; for every reference point `(lon, lat)`, in order,
the forward call is `pj_transform(latlong, target, 1, 1, lon * DEG_TO_RAD,
lat * DEG_TO_RAD, NULL)` and the inverse call is `pj_transform(target, latlong,
1, 1, x, y, NULL)` on the point `(x, y)` the forward call returned; the forward test case records
`(x, y)` as returned and the inverse test case records the result of the
inverse call with both components multiplied by `RAD_TO_DEG`. -/
theorem driver_protocol {PJ D : Type} (E : Proj PJ D) (A : Double D)
    (points : List (point_t D)) (prj : projection_t) (w : World PJ D) (ll tgt : PJ)
    (hll : E.pj_init_plus "+proj=latlong +ellps=WGS84" = some ll)
    (htgt : E.pj_init_plus prj.init_string = some tgt) :
    ∃ w1, process_projection E A points prj w = Step.cont w1
      ∧ w1.calls = w.calls
          ++ [Call.init prj.init_string, Call.init "+proj=latlong +ellps=WGS84"]
          ++ points.flatMap (fun pt =>
              [ Call.transform ll tgt 1 1 (A.mul pt.x A.DEG_TO_RAD) (A.mul pt.y A.DEG_TO_RAD)
                  none,
                Call.transform tgt ll 1 1
                  (E.pj_transform ll tgt 1 1 (A.mul pt.x A.DEG_TO_RAD) (A.mul pt.y A.DEG_TO_RAD)
                    none).2.1
                  (E.pj_transform ll tgt 1 1 (A.mul pt.x A.DEG_TO_RAD) (A.mul pt.y A.DEG_TO_RAD)
                    none).2.2
                  none ])
      ∧ w1.stdout = w.stdout ++ ["\tdescribe '" ++ prj.name ++ "'\n"]
          ++ points.flatMap (fun pt =>
              let fwd := E.pj_transform ll tgt 1 1 (A.mul pt.x A.DEG_TO_RAD)
                (A.mul pt.y A.DEG_TO_RAD) none
              let inv := E.pj_transform tgt ll 1 1 fwd.2.1 fwd.2.2 none
              forward_case A prj.name pt.x pt.y fwd.2.1 fwd.2.2
              ++ inverse_case A prj.name fwd.2.1 fwd.2.2
                  (A.mul inv.2.1 A.RAD_TO_DEG) (A.mul inv.2.2 A.RAD_TO_DEG))
          ++ ["\tend\n\n"]
      ∧ "+ellps=WGS84".data <:+: "+proj=latlong +ellps=WGS84".data := by
  refine ⟨_, process_projection_ok E A points prj w ll tgt hll htgt, ?_, ?_, by decide⟩
  · simp only [block_calls, LATLONG, List.append_assoc, List.cons_append, List.nil_append]
    rfl
  · simp only [describe_block, List.append_assoc, List.cons_append, List.nil_append]
    rfl

/-- Witness of C7: the equirectangular engine on `WebMercator`, from the empty
world. -/
theorem driver_protocol_witness :
    equirect.pj_init_plus "+proj=latlong +ellps=WGS84" = some Frame.latlong
    ∧ equirect.pj_init_plus (projection_t.mk "+proj=merc +a=6378137" "WebMercator").init_string
        = some Frame.planar
    ∧ ∃ w1, process_projection equirect fixed [⟨fixed.ofInt 0, fixed.ofInt 45⟩]
          ⟨"+proj=merc +a=6378137", "WebMercator"⟩ ⟨[], []⟩ = Step.cont w1
        ∧ w1.calls = [Call.init "+proj=merc +a=6378137", Call.init "+proj=latlong +ellps=WGS84",
            Call.transform Frame.latlong Frame.planar 1 1 0 78539816339744831100 none,
            Call.transform Frame.planar Frame.latlong 1 1 0 500937708569731077797660700 none] :=
  ⟨by decide, by decide,
   (driver_protocol equirect fixed [⟨fixed.ofInt 0, fixed.ofInt 45⟩]
      ⟨"+proj=merc +a=6378137", "WebMercator"⟩ ⟨[], []⟩ Frame.latlong Frame.planar
      (by decide) (by decide)).imp fun _ h => ⟨h.1, h.2.1.trans (by decide)⟩⟩

/-- Counterexample to C8: in a successful run of the program no line of the
output, indentation aside, starts with `xy = `; the call line of the forward
test case of the reference point (0, 0) is written without blanks around `=`. -/
theorem call_line_has_no_blanks :
    (projtest equirect fixed).1 = 0
    ∧ (projtest equirect fixed).2.lines.all
        (fun l => !"xy = ".data.isPrefixOf (strip_tabs l)) = true
    ∧ "\t\t\txy=Projections.WebMercator.forward(\x7bx: 0.00000000000000000000, y: 0.00000000000000000000\x7d)"
        ∈ (projtest equirect fixed).2.lines := by
  decide

/-- C8 as amended (output format).  In every successful run the text on
standard output consists of exactly the following lines, each ended by a
newline: the header `describe 'Projections'`, `before_each`,
`Projections=nanocore.Projections`, `end` and an empty line; for every
projection, in order, `describe '<name>'`, then for every reference point, in
order, the five lines of the forward test case (`it` title, call line
`xy=Projections.<name>.forward({x: <lon>, y: <lat>})` written without blanks
around `=`, expected `xy.x`, expected `xy.y`, `end`), an empty line, the five
lines of the inverse test case (with `.inverse`, the forward `(x, y)` as
arguments and the inverse result as expected values), an empty line, then
`end` and an empty line; and the closing `end`.  The numbers of the titles are
printed with `%f`, all others with `%.20f`. -/
theorem output_format {PJ D : Type} (E : Proj PJ D) (A : Double D)
    (projections : List projection_t) (points : List (point_t D))
    (ll : PJ) (tgt : projection_t → PJ)
    (hll : E.pj_init_plus "+proj=latlong +ellps=WGS84" = some ll)
    (htgt : ∀ q ∈ projections, E.pj_init_plus q.init_string = some (tgt q)) :
    (main E A projections points).1 = 0
    ∧ (main E A projections points).2.text
      = unlines
          ([ "describe 'Projections'",
             "\tbefore_each",
             "\t\tProjections=nanocore.Projections",
             "\tend",
             "" ]
          ++ projections.flatMap (fun prj =>
              ("\tdescribe '" ++ prj.name ++ "'")
              :: points.flatMap (fun pt =>
                  let x := (forward_xy E A ll (tgt prj) pt).1
                  let y := (forward_xy E A ll (tgt prj) pt).2
                  let lon1 := (inverse_lonlat E A ll (tgt prj) pt).1
                  let lat1 := (inverse_lonlat E A ll (tgt prj) pt).2
                  [ "\t\tit 'should forward transform (" ++ A.printf_f pt.x ++ ", "
                      ++ A.printf_f pt.y ++ ") to (" ++ A.printf_f x ++ "," ++ A.printf_f y
                      ++ ")'",
                    "\t\t\txy=Projections." ++ prj.name ++ ".forward(\x7bx: "
                      ++ A.printf_20f pt.x ++ ", y: " ++ A.printf_20f pt.y ++ "\x7d)",
                    "\t\t\txy.x.should.equal_approximately " ++ A.printf_20f x,
                    "\t\t\txy.y.should.equal_approximately " ++ A.printf_20f y,
                    "\t\tend",
                    "",
                    "\t\tit 'should inverse transform (" ++ A.printf_f x ++ ", "
                      ++ A.printf_f y ++ ") to (" ++ A.printf_f lon1 ++ "," ++ A.printf_f lat1
                      ++ ")'",
                    "\t\t\txy=Projections." ++ prj.name ++ ".inverse(\x7bx: "
                      ++ A.printf_20f x ++ ", y: " ++ A.printf_20f y ++ "\x7d)",
                    "\t\t\txy.x.should.equal_approximately " ++ A.printf_20f lon1,
                    "\t\t\txy.y.should.equal_approximately " ++ A.printf_20f lat1,
                    "\t\tend",
                    "" ])
              ++ ["\tend", ""])
          ++ ["end"]) := by
  have hll1 : E.pj_init_plus LATLONG = some ll := hll
  constructor
  · rw [main_success E A projections points ll tgt hll1 htgt]
  · rw [text_main_success E A projections points ll tgt hll1 htgt]
    rfl

/-- Witness of C8 as amended: the program's own registry, the reference point
(0, 0) and the equirectangular engine; the text is written out. -/
theorem output_format_witness :
    equirect.pj_init_plus "+proj=latlong +ellps=WGS84" = some Frame.latlong
    ∧ (∀ q ∈ PROJECTIONS, equirect.pj_init_plus q.init_string = some Frame.planar)
    ∧ (main equirect fixed PROJECTIONS [⟨fixed.ofInt 0, fixed.ofInt 0⟩]).2.text
      = unlines
          [ "describe 'Projections'",
            "\tbefore_each",
            "\t\tProjections=nanocore.Projections",
            "\tend",
            "",
            "\tdescribe 'WebMercator'",
            "\t\tit 'should forward transform (0.000000, 0.000000) to (0.000000,0.000000)'",
            "\t\t\txy=Projections.WebMercator.forward(\x7bx: 0.00000000000000000000, y: 0.00000000000000000000\x7d)",
            "\t\t\txy.x.should.equal_approximately 0.00000000000000000000",
            "\t\t\txy.y.should.equal_approximately 0.00000000000000000000",
            "\t\tend",
            "",
            "\t\tit 'should inverse transform (0.000000, 0.000000) to (0.000000,0.000000)'",
            "\t\t\txy=Projections.WebMercator.inverse(\x7bx: 0.00000000000000000000, y: 0.00000000000000000000\x7d)",
            "\t\t\txy.x.should.equal_approximately 0.00000000000000000000",
            "\t\t\txy.y.should.equal_approximately 0.00000000000000000000",
            "\t\tend",
            "",
            "\tend",
            "",
            "end" ] :=
  ⟨by decide, by decide,
   (output_format equirect fixed PROJECTIONS [⟨fixed.ofInt 0, fixed.ofInt 0⟩] Frame.latlong
      (fun _ => Frame.planar) (by decide) (by decide)).2.trans (by decide)⟩

/-- C9 (coverage of the reference points).  Whatever the arithmetic of
doubles, the table `TEST_POINTS` holds the point at the origin (0, 0), the
mid-latitude point (0, 45), the near-polar points (0, 85) and (0, -85), the
antimeridian points (180, 0) and (-180, 0), and a point both of whose
coordinates are integers other than zero: (45, 45); it has eight points. -/
theorem reference_points_coverage {D : Type} (A : Double D) :
    (⟨A.ofInt 0, A.ofInt 0⟩ : point_t D) ∈ TEST_POINTS A
    ∧ (⟨A.ofInt 0, A.ofInt 45⟩ : point_t D) ∈ TEST_POINTS A
    ∧ (⟨A.ofInt 0, A.ofInt 85⟩ : point_t D) ∈ TEST_POINTS A
    ∧ (⟨A.ofInt 0, A.ofInt (-85)⟩ : point_t D) ∈ TEST_POINTS A
    ∧ (⟨A.ofInt 180, A.ofInt 0⟩ : point_t D) ∈ TEST_POINTS A
    ∧ (⟨A.ofInt (-180), A.ofInt 0⟩ : point_t D) ∈ TEST_POINTS A
    ∧ (∃ a b : Int, a ≠ 0 ∧ b ≠ 0 ∧ (⟨A.ofInt a, A.ofInt b⟩ : point_t D) ∈ TEST_POINTS A)
    ∧ (TEST_POINTS A).length = 8 := by
  refine ⟨?_, ?_, ?_, ?_, ?_, ?_, ⟨45, 45, by decide, by decide, ?_⟩, rfl⟩ <;>
    simp [TEST_POINTS]

/-- Counterexample to C10: a registry of one projection whose name contains
line breaks, a table of one point, and an engine that creates every context.
The run succeeds, but the first nine lines of the output hold four `end` lines
and three openers, and the output has 8 openers and 14 `end` lines instead of
`2 + 1 * (1 + 2 * 1) = 5` of each. -/
theorem line_break_in_name_unbalances :
    (∀ q ∈ BROKEN_NAME, inits_ok equirect q)
    ∧ (main equirect fixed BROKEN_NAME [⟨fixed.ofInt 0, fixed.ofInt 45⟩]).1 = 0
    ∧ ((main equirect fixed BROKEN_NAME [⟨fixed.ofInt 0, fixed.ofInt 45⟩]).2.lines.take 9).countP
        is_opener = 3
    ∧ ((main equirect fixed BROKEN_NAME [⟨fixed.ofInt 0, fixed.ofInt 45⟩]).2.lines.take 9).countP
        is_end = 4
    ∧ (main equirect fixed BROKEN_NAME [⟨fixed.ofInt 0, fixed.ofInt 45⟩]).2.lines.countP
        is_opener = 8
    ∧ (main equirect fixed BROKEN_NAME [⟨fixed.ofInt 0, fixed.ofInt 45⟩]).2.lines.countP
        is_end = 14 := by
  decide

/-- C10 as amended (well-nested output).  Let the texts `printf` produces for
numbers and the names of the projections contain no line break.  Then for
every registry of P projections, every table of N points and every engine that
creates all contexts, the lines of the output are balanced: no prefix holds
more `end` lines than opener lines (`describe`, `before_each`, `it`), no
suffix holds more openers than `end` lines (every opener is closed later),
there are `2 + P * (1 + 2 * N)` openers and as many `end` lines, the first line
is `describe 'Projections'` and the last line is `end`. -/
theorem well_nested_output {PJ D : Type} (E : Proj PJ D) (A : Double D)
    (projections : List projection_t) (points : List (point_t D))
    (ll : PJ) (tgt : projection_t → PJ)
    (hll : E.pj_init_plus "+proj=latlong +ellps=WGS84" = some ll)
    (htgt : ∀ q ∈ projections, E.pj_init_plus q.init_string = some (tgt q))
    (hf : ∀ d, '\n' ∉ (A.printf_f d).data) (hg : ∀ d, '\n' ∉ (A.printf_20f d).data)
    (hn : ∀ q ∈ projections, '\n' ∉ q.name.data) :
    (∀ n, ((main E A projections points).2.lines.take n).countP is_end
        ≤ ((main E A projections points).2.lines.take n).countP is_opener)
    ∧ (∀ n, ((main E A projections points).2.lines.drop n).countP is_opener
        ≤ ((main E A projections points).2.lines.drop n).countP is_end)
    ∧ (main E A projections points).2.lines.countP is_opener
        = 2 + projections.length * (1 + 2 * points.length)
    ∧ (main E A projections points).2.lines.countP is_end
        = 2 + projections.length * (1 + 2 * points.length)
    ∧ (main E A projections points).2.lines.head? = some "describe 'Projections'"
    ∧ (main E A projections points).2.lines.getLast? = some "end" := by
  have hll1 : E.pj_init_plus LATLONG = some ll := hll
  rw [lines_main_success E A projections points ll tgt hll1 htgt hf hg hn]
  obtain ⟨h1, h2⟩ := nesting_counts _ 0 0 (nesting_spec_lines E A projections points ll tgt)
  have h3 := openers_spec_lines E A projections points ll tgt
  refine ⟨fun n => by simpa using h2 n, fun n => ?_, h3, by omega, ?_, ?_⟩
  · have h4 := h2 n
    have h5 := List.take_append_drop n (spec_lines E A projections points ll tgt)
    have h6 : (spec_lines E A projections points ll tgt).countP is_opener
        = ((spec_lines E A projections points ll tgt).take n).countP is_opener
          + ((spec_lines E A projections points ll tgt).drop n).countP is_opener := by
      rw [← List.countP_append, h5]
    have h7 : (spec_lines E A projections points ll tgt).countP is_end
        = ((spec_lines E A projections points ll tgt).take n).countP is_end
          + ((spec_lines E A projections points ll tgt).drop n).countP is_end := by
      rw [← List.countP_append, h5]
    omega
  · simp [spec_lines, header_lines]
  · simp [spec_lines]

/-- Witness of C10 as amended: the program's own tables, fixed-point numbers
and the equirectangular engine. -/
theorem well_nested_output_witness :
    equirect.pj_init_plus "+proj=latlong +ellps=WGS84" = some Frame.latlong
    ∧ (∀ q ∈ PROJECTIONS, equirect.pj_init_plus q.init_string = some Frame.planar)
    ∧ (∀ d, '\n' ∉ (fixed.printf_f d).data) ∧ (∀ d, '\n' ∉ (fixed.printf_20f d).data)
    ∧ (∀ q ∈ PROJECTIONS, '\n' ∉ q.name.data)
    ∧ (∀ n, ((projtest equirect fixed).2.lines.take n).countP is_end
        ≤ ((projtest equirect fixed).2.lines.take n).countP is_opener)
    ∧ (projtest equirect fixed).2.lines.countP is_opener = 2 + 1 * (1 + 2 * 8)
    ∧ (projtest equirect fixed).2.lines.countP is_end = 2 + 1 * (1 + 2 * 8)
    ∧ (projtest equirect fixed).2.lines.getLast? = some "end" :=
  have h := well_nested_output equirect fixed PROJECTIONS (TEST_POINTS fixed) Frame.latlong
    (fun _ => Frame.planar) (by decide) (by decide) (fixed_render_clean 6)
    (fixed_render_clean 20) (by decide)
  ⟨by decide, by decide, fixed_render_clean 6, fixed_render_clean 20, by decide,
   h.1, h.2.2.1, h.2.2.2.1, h.2.2.2.2.2⟩

end Projtest
